import Mathlib

set_option autoImplicit false

set_option linter.unusedVariables false

set_option linter.unreachableTactic false

set_option linter.unusedTactic false

/-!
Shallow embedding of the compute-pass recording and replay core of
`wgpu-core/src/command/compute.rs`: the data model (passes, records, side
buffers, resolved resource handles), the recording API, and the
finalization / replay driver, together with proofs about the claims of
the specification.  Machine integers are modelled as `Nat` with explicit
`% 2 ^ w` where overflow is observable; external collaborators (binder,
trackers, HAL encoder, registries) are modelled from the specification's
contracts where their code is not part of the repository snapshot.
-/

namespace Wgpu

instance {ε α : Type} [DecidableEq ε] [DecidableEq α] : DecidableEq (Except ε α) :=
  fun x y =>
    match x, y with
    | .ok a, .ok b => if h : a = b then .isTrue (by rw [h]) else .isFalse (by simp [h])
    | .error e, .error f => if h : e = f then .isTrue (by rw [h]) else .isFalse (by simp [h])
    | .ok _, .error _ => .isFalse (by simp)
    | .error _, .ok _ => .isFalse (by simp)

/-- Word size moduli for `u32` / `u64` arithmetic. -/
def u32Mod : Nat := 2 ^ 32

/-- Modulus for `u64` arithmetic. -/
def u64Mod : Nat := 2 ^ 64

/-- Association-list lookup used to model registry (`hub`) reads and
slot maps. -/
def assocGet {α : Type} : List (Nat × α) → Nat → Option α
  | [], _ => none
  | (j, v) :: rest, i => if j = i then some v else assocGet rest i

/-- Association-list update preserving entry order. -/
def assocSet {α : Type} : List (Nat × α) → Nat → α → List (Nat × α)
  | [], i, v => [(i, v)]
  | (j, w) :: rest, i, v =>
    if j = i then (i, v) :: rest else (j, w) :: assocSet rest i v

/-- Rust slice expression `arr[start..start + len]` on a `Vec`: `some`
slice when the range is in bounds, `none` models the out-of-bounds slice
panic. -/
def sliceRange (l : List Nat) (start len : Nat) : Option (List Nat) :=
  if start + len ≤ l.length then some ((l.drop start).take len) else none

/-- Rust slice expression `arr[s..e]` on a `Vec` with both endpoints
given: `some` slice when `s ≤ e ≤ arr.len()`, `none` models the slice
panic (inverted range or end out of bounds). -/
def sliceStartEnd (l : List Nat) (s e : Nat) : Option (List Nat) :=
  if s ≤ e ∧ e ≤ l.length then some ((l.drop s).take (e - s)) else none

/-- Helper for UTF-8 continuation bytes (`0x80..=0xBF`). -/
def utf8Cont (b : Nat) : Bool := 0x80 ≤ b && b < 0xC0

/-- Modelled from the spec: validity of a byte sequence as UTF-8, the
check performed by `str::from_utf8` (Rust core, not part of this
repository snapshot), following the standard UTF-8 byte-range table. -/
def isValidUtf8 : List Nat → Bool
  | [] => true
  | b :: rest =>
    if b < 0x80 then isValidUtf8 rest
    else if 0xC2 ≤ b && b ≤ 0xDF then
      match rest with
      | c1 :: rest' => utf8Cont c1 && isValidUtf8 rest'
      | [] => false
    else if b = 0xE0 then
      match rest with
      | c1 :: c2 :: rest' =>
        (0xA0 ≤ c1 && c1 < 0xC0) && utf8Cont c2 && isValidUtf8 rest'
      | _ => false
    else if (0xE1 ≤ b && b ≤ 0xEC) || b = 0xEE || b = 0xEF then
      match rest with
      | c1 :: c2 :: rest' => utf8Cont c1 && utf8Cont c2 && isValidUtf8 rest'
      | _ => false
    else if b = 0xED then
      match rest with
      | c1 :: c2 :: rest' =>
        (0x80 ≤ c1 && c1 < 0xA0) && utf8Cont c2 && isValidUtf8 rest'
      | _ => false
    else if b = 0xF0 then
      match rest with
      | c1 :: c2 :: c3 :: rest' =>
        (0x90 ≤ c1 && c1 < 0xC0) && utf8Cont c2 && utf8Cont c3 && isValidUtf8 rest'
      | _ => false
    else if 0xF1 ≤ b && b ≤ 0xF3 then
      match rest with
      | c1 :: c2 :: c3 :: rest' =>
        utf8Cont c1 && utf8Cont c2 && utf8Cont c3 && isValidUtf8 rest'
      | _ => false
    else if b = 0xF4 then
      match rest with
      | c1 :: c2 :: c3 :: rest' =>
        (0x80 ≤ c1 && c1 < 0x90) && utf8Cont c2 && utf8Cont c3 && isValidUtf8 rest'
      | _ => false
    else false

/-- The `u32::from_ne_bytes` packing of `chunks_exact(4)` performed by
`compute_pass_set_push_constant` (bytes below 256, little-endian order). -/
def bytesToWords : List Nat → List Nat
  | a :: b :: c :: d :: rest =>
    (a + b * 256 + c * 65536 + d * 16777216) :: bytesToWords rest
  | _ => []

/-- Fuel-driven halving loop behind `trailingZeros` (structural in the
fuel, which the wrapper supplies generously enough to be exact). -/
def tzAux : Nat → Nat → Nat
  | _, 0 => 32
  | 0, _ + 1 => 0
  | fuel + 1, n + 1 => if (n + 1) % 2 = 1 then 0 else tzAux fuel ((n + 1) / 2) + 1

/-- The `u32::trailing_zeros` of the binder's `invalid_mask` (32 for 0,
otherwise the index of the lowest set bit). -/
def trailingZeros (n : Nat) : Nat := tzAux n n

/-- Device data consulted by the compute-pass core: validity, the limits
and flags read during replay (`device.limits`, downlevel flags, features,
instance flags). -/
structure DeviceM where
  devId : Nat
  valid : Bool
  max_bind_groups : Nat
  max_compute_workgroups_per_dimension : Nat
  indirect_execution : Bool
  timestamp_query_inside_passes : Bool
  discard_hal_labels : Bool
deriving DecidableEq

/-- Pipeline layout: identity, the bind-group-layout ids it requires per
slot, and its COMPUTE-stage push-constant ranges (external
`binding_model` data, carried as plain data). -/
structure PipelineLayoutM where
  layoutId : Nat
  group_layout_ids : List Nat
  push_constant_ranges : List (Nat × Nat)
deriving DecidableEq

/-- Resolved bind group handle.  The outcomes of the external checks the
replay performs on it (`validate_dynamic_bindings`, `try_raw`, the
usage-scope merge, the late-buffer-binding check) are carried as
abstract per-resource flags. -/
structure BindGroupM where
  bgId : Nat
  device : Nat
  layout_id : Nat
  dyn_ok : Bool
  raw_ok : Bool
  merge_ok : Bool
  late_ok : Bool
deriving DecidableEq

/-- Resolved compute pipeline handle. -/
structure ComputePipelineM where
  plId : Nat
  device : Nat
  layout : PipelineLayoutM
deriving DecidableEq

/-- Resolved buffer handle: size in bytes, INDIRECT usage bit, and the
outcomes of the external usage-scope merge and `try_raw`. -/
structure BufferM where
  bufId : Nat
  device : Nat
  size : Nat
  usage_indirect : Bool
  merge_ok : Bool
  raw_ok : Bool
deriving DecidableEq

/-- Resolved query set handle; `write_ok` abstracts the outcome of the
external `validate_and_write_timestamp`. -/
structure QuerySetM where
  qsId : Nat
  device : Nat
  write_ok : Bool
deriving DecidableEq

/-- Device-level error kinds surfacing in a compute pass. -/
inductive DeviceErrorM
  | invalid
  | deviceMismatch
deriving DecidableEq

/-- `DispatchError` of the source. -/
inductive DispatchErrorM
  | missingPipeline
  | incompatibleBindGroup (index : Nat) (pipeline : Nat)
  | invalidGroupSize (current : Nat × Nat × Nat) (limit : Nat)
  | bindingSizeTooSmall
deriving DecidableEq

/-- `ComputePassErrorInner` of the source. -/
inductive ComputePassErrorInner
  | device (e : DeviceErrorM)
  | encoder
  | invalidParentEncoder
  | invalidBindGroupId (id : Nat)
  | bindGroupIndexOutOfRange (index : Nat) (max : Nat)
  | invalidPipeline (id : Nat)
  | invalidQuerySet (id : Nat)
  | destroyedResource
  | indirectBufferOverrun (offset : Nat) (end_offset : Nat) (buffer_size : Nat)
  | invalidBufferId (id : Nat)
  | resourceUsageCompatibility
  | missingBufferUsage
  | invalidPopDebugGroup
  | dispatch (e : DispatchErrorM)
  | bind
  | pushConstants
  | pushConstantOffsetAlignment
  | pushConstantSizeAlignment
  | pushConstantOutOfMemory
  | queryUse
  | missingFeatures
  | missingDownlevelFlags
  | passEnded
deriving DecidableEq

/-- `PassErrorScope` tags attached by the outer frame of each fallible
step. -/
inductive PassErrorScope
  | pass (id : Option Nat)
  | passEncoder (id : Nat)
  | setBindGroup
  | setPipelineCompute
  | setPushConstant
  | dispatch (indirect : Bool)
  | pushDebugGroup
  | popDebugGroup
  | insertDebugMarker
  | writeTimestamp
  | beginPipelineStatisticsQuery
  | endPipelineStatisticsQuery
deriving DecidableEq

/-- `ComputePassError`: inner kind plus scope. -/
structure ComputePassError where
  scope : PassErrorScope
  inner : ComputePassErrorInner
deriving DecidableEq

/-- HAL command-encoder calls emitted during finalization (the raw
encoder trace). -/
inductive HalCmd
  | resetQueries (query_set : Nat) (startIdx : Nat) (endIdx : Nat)
  | beginComputePass (label : Option (List Nat))
  | endComputePass
  | setBindGroup (index : Nat) (group : Nat) (dynamic_offsets : List Nat)
  | setComputePipeline (pipeline : Nat)
  | setPushConstants (offset : Nat) (data : List Nat)
  | pushConstantClear (offset : Nat) (len : Nat)
  | dispatch (groups : Nat × Nat × Nat)
  | dispatchIndirect (buffer : Nat) (offset : Nat)
  | beginDebugMarker (label : List Nat)
  | endDebugMarker
  | insertDebugMarker (label : List Nat)
  | writeTimestamp (query_set : Nat) (index : Nat)
  | beginPipelineStatsQuery (query_set : Nat) (index : Nat)
  | endPipelineStatsQuery
  | drainBarriers
deriving DecidableEq

/-- `ArcComputeCommand`: commands with resolved resource handles. -/
inductive ArcComputeCommand
  | setBindGroup (index : Nat) (num_dynamic_offsets : Nat) (bind_group : BindGroupM)
  | setPipeline (pipeline : ComputePipelineM)
  | setPushConstant (offset : Nat) (size_bytes : Nat) (values_offset : Nat)
  | dispatch (groups : Nat × Nat × Nat)
  | dispatchIndirect (buffer : BufferM) (offset : Nat)
  | pushDebugGroup (color : Nat) (len : Nat)
  | popDebugGroup
  | insertDebugMarker (color : Nat) (len : Nat)
  | writeTimestamp (query_set : QuerySetM) (query_index : Nat)
  | beginPipelineStatisticsQuery (query_set : QuerySetM) (query_index : Nat)
  | endPipelineStatisticsQuery
deriving DecidableEq

/-- `ComputeCommand`: the id-form commands accepted by
`compute_pass_end_with_unresolved_commands`. -/
inductive ComputeCommand
  | setBindGroup (index : Nat) (num_dynamic_offsets : Nat) (bind_group_id : Nat)
  | setPipeline (pipeline_id : Nat)
  | setPushConstant (offset : Nat) (size_bytes : Nat) (values_offset : Nat)
  | dispatch (groups : Nat × Nat × Nat)
  | dispatchIndirect (buffer_id : Nat) (offset : Nat)
  | pushDebugGroup (color : Nat) (len : Nat)
  | popDebugGroup
  | insertDebugMarker (color : Nat) (len : Nat)
  | writeTimestamp (query_set_id : Nat) (query_index : Nat)
  | beginPipelineStatisticsQuery (query_set_id : Nat) (query_index : Nat)
  | endPipelineStatisticsQuery
deriving DecidableEq

/-- `BasePass`: label, ordered command list, and the three side buffers,
polymorphic in the command type like the source. -/
structure BasePass (C : Type) where
  label : Option (List Nat)
  commands : List C
  dynamic_offsets : List Nat
  string_data : List Nat
  push_constant_data : List Nat
deriving DecidableEq

/-- `BasePass::new(label)`: empty record. -/
def BasePass.mkNew (C : Type) (label : Option (List Nat)) : BasePass C :=
  ⟨label, [], [], [], []⟩

/-- Modelled from the spec (redundancy filter): per-slot record of the
last bind group id and dynamic offsets seen at recording time. -/
structure BindGroupStateChange where
  slots : List (Nat × Nat × List Nat)
deriving DecidableEq

/-- Modelled from the spec (redundancy filter): `StateChange` keeps the
last pipeline id recorded. -/
structure StateChange where
  last_state : Option Nat
deriving DecidableEq

/-- Modelled from the spec (§4.1): `SetPipeline(p)` is dropped iff `p`
equals the last pipeline id recorded; the filter then records `p`. -/
def StateChange.set_and_check_redundant (s : StateChange) (new_state : Nat) :
    StateChange × Bool :=
  (⟨some new_state⟩, s.last_state = some new_state)

/-- Modelled from the spec (§4.1): `SetBindGroup(i, g, offsets)` is
dropped iff the filter already has slot `i` bound to the same group id
and the new dynamic offsets equal the stored ones; when not redundant the
filter updates its record and the offsets are written through it into
the dynamic-offset side buffer. -/
def set_and_check_redundant (s : BindGroupStateChange) (bind_group_id index : Nat)
    (dynamic_offsets : List Nat) (offsets : List Nat) :
    BindGroupStateChange × List Nat × Bool :=
  match assocGet s.slots index with
  | some st =>
    if st.1 = bind_group_id ∧ st.2 = offsets then (s, dynamic_offsets, true)
    else
      (⟨assocSet s.slots index (bind_group_id, offsets)⟩, dynamic_offsets ++ offsets, false)
  | none =>
    (⟨assocSet s.slots index (bind_group_id, offsets)⟩, dynamic_offsets ++ offsets, false)

/-- `CommandEncoderStatus` of the parent command buffer. -/
inductive CommandEncoderStatus
  | recording
  | locked
  | finished
  | error
deriving DecidableEq

/-- Modelled from the spec: the raw HAL command encoder's segment
operations (`close`, `open`, `close_and_swap`) are fallible external
calls; their outcomes are scripted as lists consumed per call (an
exhausted script means success). -/
structure EncoderM where
  close_results : List Bool
  open_results : List Bool
  swap_results : List Bool
deriving DecidableEq

/-- One `CommandEncoder::close` call: consumes the next scripted outcome. -/
def EncoderM.closeStep (e : EncoderM) : EncoderM × Bool :=
  match e.close_results with
  | [] => (e, true)
  | r :: rest => ({ e with close_results := rest }, r)

/-- One `CommandEncoder::open` call. -/
def EncoderM.openStep (e : EncoderM) : EncoderM × Bool :=
  match e.open_results with
  | [] => (e, true)
  | r :: rest => ({ e with open_results := rest }, r)

/-- One `CommandEncoder::close_and_swap` call. -/
def EncoderM.swapStep (e : EncoderM) : EncoderM × Bool :=
  match e.swap_results with
  | [] => (e, true)
  | r :: rest => ({ e with swap_results := rest }, r)

/-- Parent command buffer: identity, device, encoder status and the raw
encoder. -/
structure CommandBufferM where
  cbId : Nat
  device : DeviceM
  status : CommandEncoderStatus
  encoder : EncoderM
deriving DecidableEq

/-- Modelled from the spec (§5): `unlock_encoder` reverses the lock taken
at pass creation; unlocking a non-locked encoder is an error. -/
def unlock_encoder (cb : CommandBufferM) : CommandBufferM × Bool :=
  if cb.status = .locked then ({ cb with status := .recording }, true) else (cb, false)

/-- Resolved timestamp-write binding (`ArcComputePassTimestampWrites`). -/
structure ArcComputePassTimestampWrites where
  query_set : QuerySetM
  beginning_of_pass_write_index : Option Nat
  end_of_pass_write_index : Option Nat
deriving DecidableEq

/-- Id-form timestamp-write binding (`ComputePassTimestampWrites`). -/
structure ComputePassTimestampWrites where
  query_set : Nat
  beginning_of_pass_write_index : Option Nat
  end_of_pass_write_index : Option Nat
deriving DecidableEq

/-- `ComputePass`: optional record (absent iff ended), optional parent
command buffer (absent iff the pass is invalid), timestamp binding, and
the redundancy-filter state. -/
structure ComputePass where
  base : Option (BasePass ArcComputeCommand)
  parent : Option CommandBufferM
  timestamp_writes : Option ArcComputePassTimestampWrites
  current_bind_groups : BindGroupStateChange
  current_pipeline : StateChange
deriving DecidableEq

/-- `ComputePass::new`. -/
def ComputePass.mkNew (parent : Option CommandBufferM) (label : Option (List Nat))
    (timestamp_writes : Option ArcComputePassTimestampWrites) : ComputePass :=
  { base := some (BasePass.mkNew ArcComputeCommand label)
    parent
    timestamp_writes
    current_bind_groups := ⟨[]⟩
    current_pipeline := ⟨none⟩ }

/-- Registry (`hub`) contents looked up by opaque ids at recording and
resolution time. -/
structure HubM where
  bind_groups : List (Nat × BindGroupM)
  compute_pipelines : List (Nat × ComputePipelineM)
  buffers : List (Nat × BufferM)
  query_sets : List (Nat × QuerySetM)
  command_buffers : List (Nat × CommandBufferM)
deriving DecidableEq

/-- Binder state during replay: current pipeline layout, the per-slot
bind groups, and the invalid-binding bitmask (modelled from the spec
§4.2; the mask invariant is recomputed from slots and layout). -/
structure BinderM where
  pipeline_layout : Option PipelineLayoutM
  groups : List (Option BindGroupM)
  invalid_mask : Nat
deriving DecidableEq

/-- Pad-and-set of a binder slot. -/
def setSlot (l : List (Option BindGroupM)) (i : Nat) (g : BindGroupM) :
    List (Option BindGroupM) :=
  (l ++ List.replicate (i + 1 - l.length) none).set i (some g)

/-- Modelled from the spec (§4.2): bit `i` of the invalid mask is set iff
slot `i` is required by the layout but not occupied by a bind group whose
layout matches. -/
def maskAux : List Nat → List (Option BindGroupM) → Nat → Nat
  | [], _, _ => 0
  | r :: rs, gs, i =>
    match gs with
    | some g :: gs' =>
      (if g.layout_id = r then 0 else 2 ^ i) + maskAux rs gs' (i + 1)
    | none :: gs' => 2 ^ i + maskAux rs gs' (i + 1)
    | [] => 2 ^ i + maskAux rs [] (i + 1)

/-- Invalid mask of a slot assignment against an optional layout. -/
def computeInvalidMask (layout : Option PipelineLayoutM)
    (groups : List (Option BindGroupM)) : Nat :=
  match layout with
  | none => 0
  | some pl => maskAux pl.group_layout_ids groups 0

/-- Modelled from the spec (§4.2): `Binder::assign_group` stores the
group and updates the invalid mask; the returned dirty entries are the
newly assigned group when a pipeline layout is currently set, and empty
otherwise (HAL binds deferred). -/
def BinderM.assign_group (b : BinderM) (index : Nat) (g : BindGroupM) :
    BinderM × List BindGroupM :=
  let groups' := setSlot b.groups index g
  ({ b with groups := groups',
            invalid_mask := computeInvalidMask b.pipeline_layout groups' },
   if b.pipeline_layout.isSome then [g] else [])

/-- Length of the compatible prefix of slots under a new layout
(spec §4.2 prefix rule). -/
def compatLen : List Nat → List (Option BindGroupM) → Nat
  | r :: rs, some g :: gs => if g.layout_id = r then compatLen rs gs + 1 else 0
  | _, _ => 0

/-- Modelled from the spec (§4.2): `Binder::change_pipeline_layout` keeps
the compatible prefix of slots, drops the rest and recomputes the invalid
mask; the HAL rebind entry list is abstracted as empty (no claim depends
on its contents). -/
def BinderM.change_pipeline_layout (b : BinderM) (layout : PipelineLayoutM) :
    BinderM × Nat × List BindGroupM :=
  let k := compatLen layout.group_layout_ids b.groups
  let groups' := b.groups.take k
  ({ pipeline_layout := some layout, groups := groups',
     invalid_mask := computeInvalidMask (some layout) groups' }, k, [])

/-- Bound bind groups in slot order (`Binder::list_active`). -/
def BinderM.list_active (b : BinderM) : List BindGroupM :=
  b.groups.filterMap id

/-- Replay state (`State` of the source): binder, current pipeline,
debug-scope depth, device, the HAL trace emitted through the raw
encoder, and the running side-buffer counters. -/
structure State where
  binder : BinderM
  pipeline : Option ComputePipelineM
  debug_scope_depth : Nat
  device : DeviceM
  trace : List HalCmd
  dynamic_offset_count : Nat
  string_offset : Nat
  active_query : Option (QuerySetM × Nat)
deriving DecidableEq

/-- Outcome of a replay handler: success, a structured error, or a Rust
panic (out-of-bounds slice / `unwrap` failure). -/
inductive PRes (α : Type)
  | ok (a : α)
  | err (e : ComputePassErrorInner)
  | panicked
deriving DecidableEq

/-- Outcome of a full finalization: success, a scoped error, or a panic. -/
inductive RRes (α : Type)
  | ok (a : α)
  | err (e : ComputePassError)
  | panicked
deriving DecidableEq

/-- `State::is_ready`: pipeline present, zero invalid mask, late-size
buffer bindings large enough (the latter abstracted per group). -/
def State.is_ready (st : State) : Except DispatchErrorM Unit :=
  match st.pipeline with
  | some pipeline =>
    let bind_mask := st.binder.invalid_mask
    if bind_mask ≠ 0 then
      .error (.incompatibleBindGroup (trailingZeros bind_mask) pipeline.plId)
    else if st.binder.list_active.all (fun g => g.late_ok) then .ok ()
    else .error .bindingSizeTooSmall
  | none => .error .missingPipeline

/-- `State::flush_states`: merge every bound group's usages into the
scope (conflict aborts), move them into the intermediate trackers and
drain barriers into the encoder (the merge outcome is an abstract
per-group flag; the drain is one trace event). -/
def State.flush_states (st : State) (indirect_buffer : Option Nat) :
    Except ComputePassErrorInner State :=
  if st.binder.list_active.all (fun g => g.merge_ok) then
    .ok { st with trace := st.trace ++ [.drainBarriers] }
  else .error .resourceUsageCompatibility

/-- HAL emission loop over dirty binder entries; `try_raw` failure on a
snatched group aborts with `DestroyedResource`. -/
def emitBindEntries : State → Nat → List Nat → List BindGroupM → PRes State
  | st, _, _, [] => .ok st
  | st, i, offs, e :: rest =>
    if e.raw_ok then
      emitBindEntries
        { st with trace := st.trace ++ [.setBindGroup i e.bgId offs] } (i + 1) offs rest
    else .err .destroyedResource

/-- Replay handler `set_bind_group`. -/
def set_bind_group (st : State) (cmd_buf : CommandBufferM) (dynamic_offsets : List Nat)
    (index : Nat) (num_dynamic_offsets : Nat) (bind_group : BindGroupM) : PRes State :=
  if bind_group.device ≠ cmd_buf.device.devId then .err (.device .deviceMismatch) else
  let max_bind_groups := st.device.max_bind_groups
  if index ≥ max_bind_groups then
    .err (.bindGroupIndexOutOfRange index max_bind_groups)
  else
    match sliceRange dynamic_offsets st.dynamic_offset_count num_dynamic_offsets with
    | none => .panicked
    | some temp_offsets =>
      let st1 :=
        { st with dynamic_offset_count := st.dynamic_offset_count + num_dynamic_offsets }
      if ¬ bind_group.dyn_ok then .err .bind else
      let pipeline_layout := st1.binder.pipeline_layout
      let assigned := st1.binder.assign_group index bind_group
      let st2 := { st1 with binder := assigned.1 }
      if pipeline_layout.isSome then
        emitBindEntries st2 index temp_offsets assigned.2
      else .ok st2

/-- Replay handler `set_pipeline`. -/
def set_pipeline (st : State) (cmd_buf : CommandBufferM)
    (pipeline : ComputePipelineM) : PRes State :=
  if pipeline.device ≠ cmd_buf.device.devId then .err (.device .deviceMismatch) else
  let st1 :=
    { st with pipeline := some pipeline,
              trace := st.trace ++ [HalCmd.setComputePipeline pipeline.plId] }
  let layoutChanged : Bool :=
    match st1.binder.pipeline_layout with
    | none => true
    | some l => l.layoutId != pipeline.layout.layoutId
  if layoutChanged then
    let changed := st1.binder.change_pipeline_layout pipeline.layout
    let st2 := { st1 with binder := changed.1 }
    let clears :=
      pipeline.layout.push_constant_ranges.map
        (fun r => HalCmd.pushConstantClear r.1 (r.2 - r.1))
    .ok { st2 with trace := st2.trace ++ clears }
  else .ok st1

/-- Replay handler `set_push_constant`.  `end_offset_bytes` and
`values_end_offset` are computed in `u32` arithmetic: the additions wrap
modulo `2 ^ 32` (the `as usize` cast happens after the `u32` sum), and
the slice is taken with both endpoints, panicking on an inverted
range. -/
def set_push_constant (st : State) (push_constant_data : List Nat)
    (offset : Nat) (size_bytes : Nat) (values_offset : Nat) : PRes State :=
  let end_offset_bytes := (offset + size_bytes) % u32Mod
  let values_end_offset := (values_offset + size_bytes / 4) % u32Mod
  match sliceStartEnd push_constant_data values_offset values_end_offset with
  | none => .panicked
  | some data_slice =>
    match st.binder.pipeline_layout with
    | none => .err (.dispatch .missingPipeline)
    | some pipeline_layout =>
      if pipeline_layout.push_constant_ranges.any
          (fun r => r.1 ≤ offset ∧ end_offset_bytes ≤ r.2) then
        .ok { st with trace := st.trace ++ [.setPushConstants offset data_slice] }
      else .err .pushConstants

/-- Replay handler `dispatch`. -/
def dispatch (st : State) (groups : Nat × Nat × Nat) : PRes State :=
  match st.is_ready with
  | .error e => .err (.dispatch e)
  | .ok _ =>
    match st.flush_states none with
    | .error e => .err e
    | .ok st1 =>
      let groups_size_limit := st1.device.max_compute_workgroups_per_dimension
      if groups.1 > groups_size_limit ∨ groups.2.1 > groups_size_limit ∨
          groups.2.2 > groups_size_limit then
        .err (.dispatch (.invalidGroupSize groups groups_size_limit))
      else .ok { st1 with trace := st1.trace ++ [.dispatch groups] }

/-- Replay handler `dispatch_indirect`.  The `u64` computation
`offset + size_of::<DispatchIndirectArgs>()` is taken modulo `2 ^ 64`. -/
def dispatch_indirect (st : State) (cmd_buf : CommandBufferM) (buffer : BufferM)
    (offset : Nat) : PRes State :=
  if buffer.device ≠ cmd_buf.device.devId then .err (.device .deviceMismatch) else
  match st.is_ready with
  | .error e => .err (.dispatch e)
  | .ok _ =>
    if ¬ st.device.indirect_execution then .err .missingDownlevelFlags else
    if ¬ buffer.merge_ok then .err .resourceUsageCompatibility else
    if ¬ buffer.usage_indirect then .err .missingBufferUsage else
    let end_offset := (offset + 12) % u64Mod
    if end_offset > buffer.size then
      .err (.indirectBufferOverrun offset end_offset buffer.size)
    else
      match st.flush_states (some buffer.bufId) with
      | .error e => .err e
      | .ok st1 =>
        if buffer.raw_ok then
          .ok { st1 with trace := st1.trace ++ [.dispatchIndirect buffer.bufId offset] }
        else .err .destroyedResource

/-- Replay handler `push_debug_group`: slices the label bytes and
unwraps `str::from_utf8` (panic when out of bounds or invalid UTF-8). -/
def push_debug_group (st : State) (string_data : List Nat) (len : Nat) : PRes State :=
  let st1 := { st with debug_scope_depth := st.debug_scope_depth + 1 }
  if ¬ st1.device.discard_hal_labels then
    match sliceRange string_data st1.string_offset len with
    | none => .panicked
    | some label =>
      if isValidUtf8 label then
        .ok { st1 with trace := st1.trace ++ [.beginDebugMarker label],
                       string_offset := st1.string_offset + len }
      else .panicked
  else .ok { st1 with string_offset := st1.string_offset + len }

/-- Replay handler `pop_debug_group`. -/
def pop_debug_group (st : State) : PRes State :=
  if st.debug_scope_depth = 0 then .err .invalidPopDebugGroup else
  let st1 := { st with debug_scope_depth := st.debug_scope_depth - 1 }
  if ¬ st1.device.discard_hal_labels then
    .ok { st1 with trace := st1.trace ++ [.endDebugMarker] }
  else .ok st1

/-- Replay handler `insert_debug_marker`. -/
def insert_debug_marker (st : State) (string_data : List Nat) (len : Nat) : PRes State :=
  if ¬ st.device.discard_hal_labels then
    match sliceRange string_data st.string_offset len with
    | none => .panicked
    | some label =>
      if isValidUtf8 label then
        .ok { st with trace := st.trace ++ [.insertDebugMarker label],
                      string_offset := st.string_offset + len }
      else .panicked
  else .ok { st with string_offset := st.string_offset + len }

/-- Replay handler `write_timestamp`. -/
def write_timestamp (st : State) (cmd_buf : CommandBufferM) (query_set : QuerySetM)
    (query_index : Nat) : PRes State :=
  if query_set.device ≠ cmd_buf.device.devId then .err (.device .deviceMismatch) else
  if ¬ st.device.timestamp_query_inside_passes then .err .missingFeatures else
  if query_set.write_ok then
    .ok { st with trace := st.trace ++ [.writeTimestamp query_set.qsId query_index] }
  else .err .queryUse

/-- Modelled from the spec (§4.6): the pipeline-statistics query protocol
keeps at most one active query; begin stores it. -/
def begin_pipeline_statistics_query (st : State) (query_set : QuerySetM)
    (query_index : Nat) : PRes State :=
  if st.active_query.isSome then .err .queryUse else
  .ok { st with active_query := some (query_set, query_index),
                trace := st.trace ++ [.beginPipelineStatsQuery query_set.qsId query_index] }

/-- Modelled from the spec (§4.6): end requires an active query. -/
def end_pipeline_statistics_query (st : State) : PRes State :=
  match st.active_query with
  | some _ =>
    .ok { st with active_query := none, trace := st.trace ++ [.endPipelineStatsQuery] }
  | none => .err .queryUse

/-- The `PassErrorScope` the replay loop attaches to each command kind. -/
def cmdScope : ArcComputeCommand → PassErrorScope
  | .setBindGroup _ _ _ => .setBindGroup
  | .setPipeline _ => .setPipelineCompute
  | .setPushConstant _ _ _ => .setPushConstant
  | .dispatch _ => .dispatch false
  | .dispatchIndirect _ _ => .dispatch true
  | .pushDebugGroup _ _ => .pushDebugGroup
  | .popDebugGroup => .popDebugGroup
  | .insertDebugMarker _ _ => .insertDebugMarker
  | .writeTimestamp _ _ => .writeTimestamp
  | .beginPipelineStatisticsQuery _ _ => .beginPipelineStatisticsQuery
  | .endPipelineStatisticsQuery => .endPipelineStatisticsQuery

/-- One iteration of the replay loop of `compute_pass_end_impl`. -/
def replayCmd (st : State) (cmd_buf : CommandBufferM)
    (base : BasePass ArcComputeCommand) : ArcComputeCommand → PRes State
  | .setBindGroup index n bg => set_bind_group st cmd_buf base.dynamic_offsets index n bg
  | .setPipeline p => set_pipeline st cmd_buf p
  | .setPushConstant o s v => set_push_constant st base.push_constant_data o s v
  | .dispatch g => dispatch st g
  | .dispatchIndirect b o => dispatch_indirect st cmd_buf b o
  | .pushDebugGroup _ len => push_debug_group st base.string_data len
  | .popDebugGroup => pop_debug_group st
  | .insertDebugMarker _ len => insert_debug_marker st base.string_data len
  | .writeTimestamp qs i => write_timestamp st cmd_buf qs i
  | .beginPipelineStatisticsQuery qs i => begin_pipeline_statistics_query st qs i
  | .endPipelineStatisticsQuery => end_pipeline_statistics_query st

/-- The replay loop: runs every command in order, wrapping errors with
the command's scope; aborts at the first error or panic, returning the
state reached so far. -/
def replayCmds (cmd_buf : CommandBufferM) (base : BasePass ArcComputeCommand) :
    State → List ArcComputeCommand → State × RRes Unit
  | st, [] => (st, .ok ())
  | st, c :: cs =>
    match replayCmd st cmd_buf base c with
    | .ok st' => replayCmds cmd_buf base st' cs
    | .err e => (st, .err ⟨cmdScope c, e⟩)
    | .panicked => (st, .panicked)

/-- The sub-range of query indices reset for a timestamp-write binding:
`min..max + 1` when both indices are present, else the single index,
else nothing. -/
def timestampResetRange (b e : Option Nat) : Option (Nat × Nat) :=
  match b, e with
  | some x, some y => some (min x y, max x y + 1)
  | some x, none => some (x, x + 1)
  | none, some y => some (y, y + 1)
  | none, none => none

/-- Markers for the steps of finalization that completed, used to state
the control-flow invariants of `compute_pass_end_impl`. -/
inductive FinalEvent
  | deviceChecked
  | prevClosed
  | statusSetError
  | bodyOpened
  | statusSetRecording
  | bodyClosed
  | preBodyOpened
  | discardFixups
  | barrierPrelude
  | closeAndSwap
deriving DecidableEq

/-- Result of a finalization: the mutated command buffer, the step
markers reached, the HAL trace emitted into the raw encoder, and the
outcome. -/
structure EndOutcome where
  cmd_buf : CommandBufferM
  events : List FinalEvent
  trace : List HalCmd
  result : RRes Unit
deriving DecidableEq

/-- The fresh replay state built at the top of `compute_pass_end_impl`. -/
def initState (device : DeviceM) : State :=
  { binder := { pipeline_layout := none, groups := [], invalid_mask := 0 }
    pipeline := none
    debug_scope_depth := 0
    device
    trace := []
    dynamic_offset_count := 0
    string_offset := 0
    active_query := none }

/-- `compute_pass_end_impl`: device validity check, close of the previous
segment, status set to `Error`, open of the body segment, timestamp
query reset, `begin_compute_pass`, per-command replay,
`end_compute_pass`, status restored to `Recording`, close of the body,
open of the pre-body (discard fixups and barrier prelude), and
`close_and_swap`. -/
def compute_pass_end_impl (cmd_buf : CommandBufferM)
    (base : BasePass ArcComputeCommand)
    (timestamp_writes : Option ArcComputePassTimestampWrites) : EndOutcome :=
  let pass_scope := PassErrorScope.pass (some cmd_buf.cbId)
  if ¬ cmd_buf.device.valid then
    ⟨cmd_buf, [], [], .err ⟨pass_scope, .device .invalid⟩⟩
  else
    let closed1 := cmd_buf.encoder.closeStep
    let cb1 := { cmd_buf with encoder := closed1.1 }
    if ¬ closed1.2 then ⟨cb1, [.deviceChecked], [], .err ⟨pass_scope, .encoder⟩⟩ else
    let cb2 := { cb1 with status := CommandEncoderStatus.error }
    let opened1 := cb2.encoder.openStep
    let cb3 := { cb2 with encoder := opened1.1 }
    if ¬ opened1.2 then
      ⟨cb3, [.deviceChecked, .prevClosed, .statusSetError], [],
        .err ⟨pass_scope, .encoder⟩⟩
    else
      let ev0 : List FinalEvent :=
        [.deviceChecked, .prevClosed, .statusSetError, .bodyOpened]
      let resetTrace : List HalCmd :=
        match timestamp_writes with
        | some tw =>
          match timestampResetRange tw.beginning_of_pass_write_index
              tw.end_of_pass_write_index with
          | some r => [.resetQueries tw.query_set.qsId r.1 r.2]
          | none => []
        | none => []
      let st0 : State :=
        { initState cb3.device with
            trace := resetTrace ++ [.beginComputePass base.label] }
      let replayed := replayCmds cb3 base st0 base.commands
      match replayed.2 with
      | .panicked => ⟨cb3, ev0, replayed.1.trace, .panicked⟩
      | .err e => ⟨cb3, ev0, replayed.1.trace, .err e⟩
      | .ok _ =>
        let traceF := replayed.1.trace ++ [.endComputePass]
        let cb4 := { cb3 with status := CommandEncoderStatus.recording }
        let ev1 := ev0 ++ [.statusSetRecording]
        let closed2 := cb4.encoder.closeStep
        let cb5 := { cb4 with encoder := closed2.1 }
        if ¬ closed2.2 then ⟨cb5, ev1, traceF, .err ⟨pass_scope, .encoder⟩⟩ else
        let ev2 := ev1 ++ [.bodyClosed]
        let opened2 := cb5.encoder.openStep
        let cb6 := { cb5 with encoder := opened2.1 }
        if ¬ opened2.2 then ⟨cb6, ev2, traceF, .err ⟨pass_scope, .encoder⟩⟩ else
        let ev3 := ev2 ++ [.preBodyOpened, .discardFixups, .barrierPrelude]
        let swapped := cb6.encoder.swapStep
        let cb7 := { cb6 with encoder := swapped.1 }
        if ¬ swapped.2 then ⟨cb7, ev3, traceF, .err ⟨pass_scope, .encoder⟩⟩ else
        ⟨cb7, ev3 ++ [.closeAndSwap], traceF, .ok ()⟩

/-- `Global::compute_pass_end`: parent check, unlock of the parent
encoder, take of the record (it never reappears), then finalization. -/
def compute_pass_end (pass : ComputePass) : ComputePass × RRes Unit :=
  match pass.parent with
  | none => (pass, .err ⟨.pass none, .invalidParentEncoder⟩)
  | some cmd_buf =>
    let scope := PassErrorScope.pass (some cmd_buf.cbId)
    let unlocked := unlock_encoder cmd_buf
    if ¬ unlocked.2 then
      ({ pass with parent := some unlocked.1 }, .err ⟨scope, .encoder⟩)
    else
      match pass.base with
      | none => ({ pass with parent := some unlocked.1 }, .err ⟨scope, .passEnded⟩)
      | some base =>
        let out := compute_pass_end_impl unlocked.1 base pass.timestamp_writes
        ({ pass with base := none, timestamp_writes := none,
                     parent := some out.cmd_buf },
         out.result)

/-- `Global::compute_pass_set_bind_group` (recording). -/
def compute_pass_set_bind_group (hub : HubM) (pass : ComputePass) (index : Nat)
    (bind_group_id : Nat) (offsets : List Nat) :
    ComputePass × Except ComputePassError Unit :=
  let scope := PassErrorScope.setBindGroup
  match pass.base with
  | none => (pass, .error ⟨scope, .passEnded⟩)
  | some base =>
    let filtered :=
      set_and_check_redundant pass.current_bind_groups bind_group_id index
        base.dynamic_offsets offsets
    let base1 := { base with dynamic_offsets := filtered.2.1 }
    let pass1 := { pass with base := some base1, current_bind_groups := filtered.1 }
    if filtered.2.2 then (pass1, .ok ()) else
    match assocGet hub.bind_groups bind_group_id with
    | none => (pass1, .error ⟨scope, .invalidBindGroupId bind_group_id⟩)
    | some bind_group =>
      ({ pass1 with base := some { base1 with commands := base1.commands ++
          [.setBindGroup index offsets.length bind_group] } }, .ok ())

/-- `Global::compute_pass_set_pipeline` (recording); note the redundancy
filter is consulted before the ended check, but its early-out happens
after it. -/
def compute_pass_set_pipeline (hub : HubM) (pass : ComputePass) (pipeline_id : Nat) :
    ComputePass × Except ComputePassError Unit :=
  let filtered := pass.current_pipeline.set_and_check_redundant pipeline_id
  let pass1 := { pass with current_pipeline := filtered.1 }
  let scope := PassErrorScope.setPipelineCompute
  match pass1.base with
  | none => (pass1, .error ⟨scope, .passEnded⟩)
  | some base =>
    if filtered.2 then (pass1, .ok ()) else
    match assocGet hub.compute_pipelines pipeline_id with
    | none => (pass1, .error ⟨scope, .invalidPipeline pipeline_id⟩)
    | some pipeline =>
      ({ pass1 with base := some { base with commands := base.commands ++
          [.setPipeline pipeline] } }, .ok ())

/-- `Global::compute_pass_set_push_constant` (recording): alignment
checks on offset and byte length (`data.len() as u32` truncates to
`u32`), overflow check on the running word-buffer offset, then append. -/
def compute_pass_set_push_constant (pass : ComputePass) (offset : Nat)
    (data : List Nat) : ComputePass × Except ComputePassError Unit :=
  let scope := PassErrorScope.setPushConstant
  match pass.base with
  | none => (pass, .error ⟨scope, .passEnded⟩)
  | some base =>
    if offset % 4 ≠ 0 then (pass, .error ⟨scope, .pushConstantOffsetAlignment⟩) else
    if data.length % u32Mod % 4 ≠ 0 then
      (pass, .error ⟨scope, .pushConstantSizeAlignment⟩)
    else
      if base.push_constant_data.length ≥ u32Mod then
        (pass, .error ⟨scope, .pushConstantOutOfMemory⟩)
      else
        let value_offset := base.push_constant_data.length
        ({ pass with base := some { base with
            push_constant_data := base.push_constant_data ++ bytesToWords data,
            commands := base.commands ++
              [.setPushConstant offset (data.length % u32Mod) value_offset] } },
         .ok ())

/-- `Global::compute_pass_dispatch_workgroups` (recording). -/
def compute_pass_dispatch_workgroups (pass : ComputePass) (gx gy gz : Nat) :
    ComputePass × Except ComputePassError Unit :=
  match pass.base with
  | none => (pass, .error ⟨.dispatch false, .passEnded⟩)
  | some base =>
    ({ pass with base := some { base with commands := base.commands ++
        [.dispatch (gx, gy, gz)] } }, .ok ())

/-- `Global::compute_pass_dispatch_workgroups_indirect` (recording). -/
def compute_pass_dispatch_workgroups_indirect (hub : HubM) (pass : ComputePass)
    (buffer_id : Nat) (offset : Nat) : ComputePass × Except ComputePassError Unit :=
  let scope := PassErrorScope.dispatch true
  match pass.base with
  | none => (pass, .error ⟨scope, .passEnded⟩)
  | some base =>
    match assocGet hub.buffers buffer_id with
    | none => (pass, .error ⟨scope, .invalidBufferId buffer_id⟩)
    | some buffer =>
      ({ pass with base := some { base with commands := base.commands ++
          [.dispatchIndirect buffer offset] } }, .ok ())

/-- `Global::compute_pass_push_debug_group` (recording): appends the
label bytes and a command holding their length. -/
def compute_pass_push_debug_group (pass : ComputePass) (label : List Nat)
    (color : Nat) : ComputePass × Except ComputePassError Unit :=
  match pass.base with
  | none => (pass, .error ⟨.pushDebugGroup, .passEnded⟩)
  | some base =>
    ({ pass with base := some { base with
        string_data := base.string_data ++ label,
        commands := base.commands ++ [.pushDebugGroup color label.length] } },
     .ok ())

/-- `Global::compute_pass_pop_debug_group` (recording). -/
def compute_pass_pop_debug_group (pass : ComputePass) :
    ComputePass × Except ComputePassError Unit :=
  match pass.base with
  | none => (pass, .error ⟨.popDebugGroup, .passEnded⟩)
  | some base =>
    ({ pass with base := some { base with
        commands := base.commands ++ [.popDebugGroup] } }, .ok ())

/-- `Global::compute_pass_insert_debug_marker` (recording). -/
def compute_pass_insert_debug_marker (pass : ComputePass) (label : List Nat)
    (color : Nat) : ComputePass × Except ComputePassError Unit :=
  match pass.base with
  | none => (pass, .error ⟨.insertDebugMarker, .passEnded⟩)
  | some base =>
    ({ pass with base := some { base with
        string_data := base.string_data ++ label,
        commands := base.commands ++ [.insertDebugMarker color label.length] } },
     .ok ())

/-- `Global::compute_pass_write_timestamp` (recording). -/
def compute_pass_write_timestamp (hub : HubM) (pass : ComputePass)
    (query_set_id : Nat) (query_index : Nat) :
    ComputePass × Except ComputePassError Unit :=
  let scope := PassErrorScope.writeTimestamp
  match pass.base with
  | none => (pass, .error ⟨scope, .passEnded⟩)
  | some base =>
    match assocGet hub.query_sets query_set_id with
    | none => (pass, .error ⟨scope, .invalidQuerySet query_set_id⟩)
    | some query_set =>
      ({ pass with base := some { base with commands := base.commands ++
          [.writeTimestamp query_set query_index] } }, .ok ())

/-- `Global::compute_pass_begin_pipeline_statistics_query` (recording). -/
def compute_pass_begin_pipeline_statistics_query (hub : HubM) (pass : ComputePass)
    (query_set_id : Nat) (query_index : Nat) :
    ComputePass × Except ComputePassError Unit :=
  let scope := PassErrorScope.beginPipelineStatisticsQuery
  match pass.base with
  | none => (pass, .error ⟨scope, .passEnded⟩)
  | some base =>
    match assocGet hub.query_sets query_set_id with
    | none => (pass, .error ⟨scope, .invalidQuerySet query_set_id⟩)
    | some query_set =>
      ({ pass with base := some { base with commands := base.commands ++
          [.beginPipelineStatisticsQuery query_set query_index] } }, .ok ())

/-- `Global::compute_pass_end_pipeline_statistics_query` (recording). -/
def compute_pass_end_pipeline_statistics_query (pass : ComputePass) :
    ComputePass × Except ComputePassError Unit :=
  match pass.base with
  | none => (pass, .error ⟨.endPipelineStatisticsQuery, .passEnded⟩)
  | some base =>
    ({ pass with base := some { base with
        commands := base.commands ++ [.endPipelineStatisticsQuery] } }, .ok ())

/-- One recording-API call, as plain data (used to quantify over all
recording histories). -/
inductive RecordOp
  | setBindGroup (index : Nat) (bind_group_id : Nat) (offsets : List Nat)
  | setPipeline (pipeline_id : Nat)
  | setPushConstant (offset : Nat) (data : List Nat)
  | dispatchWorkgroups (gx gy gz : Nat)
  | dispatchWorkgroupsIndirect (buffer_id : Nat) (offset : Nat)
  | pushDebugGroup (label : List Nat) (color : Nat)
  | popDebugGroup
  | insertDebugMarker (label : List Nat) (color : Nat)
  | writeTimestamp (query_set_id : Nat) (query_index : Nat)
  | beginPipelineStatisticsQuery (query_set_id : Nat) (query_index : Nat)
  | endPipelineStatisticsQuery
deriving DecidableEq

/-- Dispatch of one recording-API call. -/
def applyRecordOp (hub : HubM) (pass : ComputePass) :
    RecordOp → ComputePass × Except ComputePassError Unit
  | .setBindGroup i g o => compute_pass_set_bind_group hub pass i g o
  | .setPipeline p => compute_pass_set_pipeline hub pass p
  | .setPushConstant o d => compute_pass_set_push_constant pass o d
  | .dispatchWorkgroups x y z => compute_pass_dispatch_workgroups pass x y z
  | .dispatchWorkgroupsIndirect b o => compute_pass_dispatch_workgroups_indirect hub pass b o
  | .pushDebugGroup l c => compute_pass_push_debug_group pass l c
  | .popDebugGroup => compute_pass_pop_debug_group pass
  | .insertDebugMarker l c => compute_pass_insert_debug_marker pass l c
  | .writeTimestamp q i => compute_pass_write_timestamp hub pass q i
  | .beginPipelineStatisticsQuery q i => compute_pass_begin_pipeline_statistics_query hub pass q i
  | .endPipelineStatisticsQuery => compute_pass_end_pipeline_statistics_query pass

/-- The scope each recording call reports with `PassEnded`. -/
def opScope : RecordOp → PassErrorScope
  | .setBindGroup _ _ _ => .setBindGroup
  | .setPipeline _ => .setPipelineCompute
  | .setPushConstant _ _ => .setPushConstant
  | .dispatchWorkgroups _ _ _ => .dispatch false
  | .dispatchWorkgroupsIndirect _ _ => .dispatch true
  | .pushDebugGroup _ _ => .pushDebugGroup
  | .popDebugGroup => .popDebugGroup
  | .insertDebugMarker _ _ => .insertDebugMarker
  | .writeTimestamp _ _ => .writeTimestamp
  | .beginPipelineStatisticsQuery _ _ => .beginPipelineStatisticsQuery
  | .endPipelineStatisticsQuery => .endPipelineStatisticsQuery

/-- Debug labels arrive at the recording API as Rust `&str`, hence as
valid UTF-8 by type invariant; this predicate captures that invariant on
a recording call. -/
def RecordOp.wfLabels : RecordOp → Prop
  | .pushDebugGroup label _ => isValidUtf8 label = true
  | .insertDebugMarker label _ => isValidUtf8 label = true
  | _ => True

/-- Folding a recording history over a pass (results of individual calls
discarded; errors leave the pass usable). -/
def applyRecordOps (hub : HubM) : ComputePass → List RecordOp → ComputePass
  | pass, [] => pass
  | pass, op :: ops => applyRecordOps hub (applyRecordOp hub pass op).1 ops

/-- Modelled from the spec: `ComputeCommand::resolve_compute_command_ids`
resolves every id through the hub, failing on the first invalid id. -/
def resolveCmd (hub : HubM) : ComputeCommand → Except ComputePassError ArcComputeCommand
  | .setBindGroup i n g =>
    match assocGet hub.bind_groups g with
    | some bg => .ok (.setBindGroup i n bg)
    | none => .error ⟨.setBindGroup, .invalidBindGroupId g⟩
  | .setPipeline p =>
    match assocGet hub.compute_pipelines p with
    | some pl => .ok (.setPipeline pl)
    | none => .error ⟨.setPipelineCompute, .invalidPipeline p⟩
  | .setPushConstant o s v => .ok (.setPushConstant o s v)
  | .dispatch g => .ok (.dispatch g)
  | .dispatchIndirect b o =>
    match assocGet hub.buffers b with
    | some buf => .ok (.dispatchIndirect buf o)
    | none => .error ⟨.dispatch true, .invalidBufferId b⟩
  | .pushDebugGroup c l => .ok (.pushDebugGroup c l)
  | .popDebugGroup => .ok .popDebugGroup
  | .insertDebugMarker c l => .ok (.insertDebugMarker c l)
  | .writeTimestamp q i =>
    match assocGet hub.query_sets q with
    | some qs => .ok (.writeTimestamp qs i)
    | none => .error ⟨.writeTimestamp, .invalidQuerySet q⟩
  | .beginPipelineStatisticsQuery q i =>
    match assocGet hub.query_sets q with
    | some qs => .ok (.beginPipelineStatisticsQuery qs i)
    | none => .error ⟨.beginPipelineStatisticsQuery, .invalidQuerySet q⟩
  | .endPipelineStatisticsQuery => .ok .endPipelineStatisticsQuery

/-- Resolution of a whole id-form command list. -/
def resolveCmds (hub : HubM) :
    List ComputeCommand → Except ComputePassError (List ArcComputeCommand)
  | [] => .ok []
  | c :: cs =>
    match resolveCmd hub c with
    | .error e => .error e
    | .ok c' =>
      match resolveCmds hub cs with
      | .error e => .error e
      | .ok cs' => .ok (c' :: cs')

/-- Modelled from the spec: `CommandBuffer::get_encoder` requires a
recording encoder. -/
def get_encoder (hub : HubM) (encoder_id : Nat) : Option CommandBufferM :=
  match assocGet hub.command_buffers encoder_id with
  | some cb => if cb.status = .recording then some cb else none
  | none => none

/-- `Global::compute_pass_end_with_unresolved_commands`: accepts an
arbitrary id-form `BasePass` (side buffers unchecked), resolves ids and
runs `compute_pass_end_impl`. -/
def compute_pass_end_with_unresolved_commands (hub : HubM) (encoder_id : Nat)
    (base : BasePass ComputeCommand)
    (timestamp_writes : Option ComputePassTimestampWrites) : RRes Unit :=
  let scope := PassErrorScope.passEncoder encoder_id
  match get_encoder hub encoder_id with
  | none => .err ⟨scope, .encoder⟩
  | some cmd_buf =>
    match resolveCmds hub base.commands with
    | .error e => .err e
    | .ok commands =>
      match timestamp_writes with
      | some tw =>
        match assocGet hub.query_sets tw.query_set with
        | none => .err ⟨scope, .invalidQuerySet tw.query_set⟩
        | some qs =>
          (compute_pass_end_impl cmd_buf
            ⟨base.label, commands, base.dynamic_offsets, base.string_data,
              base.push_constant_data⟩
            (some ⟨qs, tw.beginning_of_pass_write_index,
              tw.end_of_pass_write_index⟩)).result
      | none =>
        (compute_pass_end_impl cmd_buf
          ⟨base.label, commands, base.dynamic_offsets, base.string_data,
            base.push_constant_data⟩ none).result

/-- Recognizer for the `IndirectBufferOverrun` outcome of a replay
handler. -/
def isOverrunErr : PRes State → Bool
  | .err (.indirectBufferOverrun _ _ _) => true
  | _ => false

/-- Recognizer for `PushDebugGroup` commands. -/
def isPushDebugCmd : ArcComputeCommand → Bool
  | .pushDebugGroup _ _ => true
  | _ => false

/-- Recognizer for `PopDebugGroup` commands. -/
def isPopDebugCmd : ArcComputeCommand → Bool
  | .popDebugGroup => true
  | _ => false

/-- Recognizer for HAL `reset_queries` calls in a trace. -/
def isResetQueriesCmd : HalCmd → Bool
  | .resetQueries _ _ _ => true
  | _ => false

/-- Total dynamic-offset count consumed by a command list at replay. -/
def dynCount : List ArcComputeCommand → Nat
  | [] => 0
  | .setBindGroup _ n _ :: cs => n + dynCount cs
  | _ :: cs => dynCount cs

/-- Total label-byte count consumed by a command list at replay. -/
def strCount : List ArcComputeCommand → Nat
  | [] => 0
  | .pushDebugGroup _ l :: cs => l + strCount cs
  | .insertDebugMarker _ l :: cs => l + strCount cs
  | _ :: cs => strCount cs

/-- Bounds and label validity of a command list against the side
buffers, walking the running replay counters: every side-buffer slice
the replay handlers take is in bounds and every debug-label slice is
valid UTF-8. -/
def cmdsOk (dyn strD : List Nat) (pcLen : Nat) :
    List ArcComputeCommand → Nat → Nat → Prop
  | [], _, _ => True
  | c :: cs, dc, so =>
    match c with
    | .setBindGroup _ n _ =>
      dc + n ≤ dyn.length ∧ cmdsOk dyn strD pcLen cs (dc + n) so
    | .setPushConstant _ s v =>
      v + s / 4 ≤ pcLen ∧ cmdsOk dyn strD pcLen cs dc so
    | .pushDebugGroup _ len =>
      so + len ≤ strD.length ∧ isValidUtf8 ((strD.drop so).take len) = true ∧
        cmdsOk dyn strD pcLen cs dc (so + len)
    | .insertDebugMarker _ len =>
      so + len ≤ strD.length ∧ isValidUtf8 ((strD.drop so).take len) = true ∧
        cmdsOk dyn strD pcLen cs dc (so + len)
    | _ => cmdsOk dyn strD pcLen cs dc so

/-- Invariant maintained by the recording API: the record's commands are
in bounds for its side buffers, the dynamic-offset total does not exceed
the side buffer (orphaned offsets from failed recording calls may trail
behind), and the label bytes are exactly the recorded labels. -/
def recordInv (p : ComputePass) : Prop :=
  ∀ b, p.base = some b →
    cmdsOk b.dynamic_offsets b.string_data b.push_constant_data.length b.commands 0 0 ∧
    dynCount b.commands ≤ b.dynamic_offsets.length ∧
    strCount b.commands = b.string_data.length

/-- Concrete device fixture. -/
def devW : DeviceM := ⟨0, true, 8, 65535, true, true, false⟩

/-- Concrete invalid device fixture. -/
def devBadW : DeviceM := { devW with valid := false }

/-- Concrete always-succeeding encoder fixture. -/
def encW : EncoderM := ⟨[], [], []⟩

/-- Concrete recording command buffer fixture. -/
def cbW : CommandBufferM := ⟨0, devW, .recording, encW⟩

/-- Concrete locked command buffer fixture (as after pass creation). -/
def cbLockedW : CommandBufferM := ⟨0, devW, .locked, encW⟩

/-- Concrete command buffer whose second encoder close fails. -/
def cbClose2FailW : CommandBufferM := ⟨0, devW, .recording, ⟨[true, false], [], []⟩⟩

/-- Concrete pipeline layout fixture. -/
def layoutW : PipelineLayoutM := ⟨0, [], [(0, 64)]⟩

/-- Concrete pipeline fixture. -/
def pipeW : ComputePipelineM := ⟨0, 0, layoutW⟩

/-- Concrete pipeline on another device. -/
def pipeOtherDevW : ComputePipelineM := ⟨1, 7, layoutW⟩

/-- Concrete bind group fixture. -/
def bgW : BindGroupM := ⟨0, 0, 0, true, true, true, true⟩

/-- Concrete bind group on another device. -/
def bgOtherDevW : BindGroupM := ⟨1, 7, 0, true, true, true, true⟩

/-- Concrete size-8 indirect buffer fixture. -/
def bufW : BufferM := ⟨0, 0, 8, true, true, true⟩

/-- Concrete buffer on another device. -/
def bufOtherDevW : BufferM := ⟨1, 7, 8, true, true, true⟩

/-- Concrete query set fixture. -/
def qsW : QuerySetM := ⟨0, 0, true⟩

/-- Concrete query set on another device. -/
def qsOtherDevW : QuerySetM := ⟨1, 7, true⟩

/-- Concrete ready replay state (pipeline set, empty binder). -/
def stReadyW : State := { initState devW with pipeline := some pipeW }

/-- Concrete replay state with a nonzero invalid mask. -/
def stMaskW : State :=
  { stReadyW with binder := { pipeline_layout := none, groups := [], invalid_mask := 2 } }

/-- Concrete empty resolved record. -/
def emptyBaseW : BasePass ArcComputeCommand := BasePass.mkNew ArcComputeCommand none

/-- Concrete live pass fixture (parent locked). -/
def passW : ComputePass := ComputePass.mkNew (some cbLockedW) none none

/-- Concrete pass with no parent command buffer. -/
def passNoParentW : ComputePass := ComputePass.mkNew none none none

/-- Concrete ended pass fixture. -/
def passEndedW : ComputePass := { passW with base := none }

/-- Concrete empty hub. -/
def hubEmptyW : HubM := ⟨[], [], [], [], []⟩

/-- Concrete hub holding the fixtures. -/
def hubW : HubM := ⟨[(0, bgW)], [(0, pipeW)], [(0, bufW)], [(0, qsW)], [(0, cbW)]⟩

/-- Concrete malformed id-form record: one `SetBindGroup` claiming one
dynamic offset against an empty side buffer. -/
def badBaseW : BasePass ComputeCommand := ⟨none, [.setBindGroup 0 1 0], [], [], []⟩

/-- Concrete pipeline layout with a full-width COMPUTE push-constant
range. -/
def layoutBigW : PipelineLayoutM := ⟨1, [], [(0, u32Mod)]⟩

/-- Concrete pipeline carrying the full-width layout. -/
def pipeBigW : ComputePipelineM := ⟨1, 0, layoutBigW⟩

/-- Concrete hub holding only the full-width pipeline. -/
def hubPcW : HubM := ⟨[], [(0, pipeBigW)], [], [], []⟩

/-- The record the recording API builds from `SetPipeline 0` followed by
`SetPushConstant 0 (replicate (2 ^ 34 - 4) 0)` and
`SetPushConstant 0 (replicate 8 0)`: the `data.len() as u32` truncation
lets the first push append `2 ^ 32 - 1` words while every recording
check passes, so the second command's `values_offset` is `2 ^ 32 - 1`
and its `u32` slice end wraps to `1` at replay. -/
def pcBaseW : BasePass ArcComputeCommand :=
  ⟨none,
   [.setPipeline pipeBigW,
    .setPushConstant 0 ((2 ^ 34 - 4) % u32Mod) 0,
    .setPushConstant 0 (8 % u32Mod) ((2 ^ 34 - 4) / 4)],
   [], [],
   bytesToWords (List.replicate (2 ^ 34 - 4) 0) ++ bytesToWords (List.replicate 8 0)⟩

/-! Helper lemmas shared by the claim theorems. -/

theorem assocGet_assocSet {α : Type} (l : List (Nat × α)) (i : Nat) (v : α) :
    assocGet (assocSet l i v) i = some v := by
  induction l with
  | nil => simp [assocSet, assocGet]
  | cons hd tl ih =>
    obtain ⟨j, w⟩ := hd
    by_cases h : j = i
    · simp [assocSet, h, assocGet]
    · simp [assocSet, h, assocGet, ih]

theorem push_debug_group_ok_shape (st : State) (sd : List Nat) (len : Nat) (st' : State)
    (h : push_debug_group st sd len = .ok st') :
    st'.debug_scope_depth = st.debug_scope_depth + 1 ∧
    st'.dynamic_offset_count = st.dynamic_offset_count ∧
    st'.string_offset = st.string_offset + len := by
  unfold push_debug_group at h
  dsimp only at h
  split at h
  · split at h
    · exact absurd h (by simp)
    · split at h
      · cases h
        exact ⟨rfl, rfl, rfl⟩
      · exact absurd h (by simp)
  · cases h
    exact ⟨rfl, rfl, rfl⟩

theorem pop_debug_group_ok_shape (st : State) (st' : State)
    (h : pop_debug_group st = .ok st') :
    st.debug_scope_depth ≠ 0 ∧
    st'.debug_scope_depth = st.debug_scope_depth - 1 ∧
    st'.dynamic_offset_count = st.dynamic_offset_count ∧
    st'.string_offset = st.string_offset := by
  unfold pop_debug_group at h
  dsimp only at h
  split at h
  · exact absurd h (by simp)
  · split at h
    · cases h
      exact ⟨by assumption, rfl, rfl, rfl⟩
    · cases h
      exact ⟨by assumption, rfl, rfl, rfl⟩

theorem replayCmds_cons_ok (cmd_buf : CommandBufferM) (base : BasePass ArcComputeCommand)
    (st stF : State) (c : ArcComputeCommand) (cs : List ArcComputeCommand)
    (h : replayCmds cmd_buf base st (c :: cs) = (stF, .ok ())) :
    ∃ st1, replayCmd st cmd_buf base c = .ok st1 ∧
      replayCmds cmd_buf base st1 cs = (stF, .ok ()) := by
  unfold replayCmds at h
  split at h
  · exact ⟨_, by assumption, h⟩
  · simp at h
  · simp at h

/-! The claims. -/

/-- C4: during replay, `Dispatch([x,y,z])` fails with
`Dispatch(MissingPipeline)` when no pipeline is set; fails with
`Dispatch(IncompatibleBindGroup)` whose index is the lowest set bit of
the binder's invalid mask when the mask is nonzero; then, after a
successful flush of the usage scope with no indirect buffer, fails with
`Dispatch(InvalidGroupSize)` when any dimension exceeds
`max_compute_workgroups_per_dimension`; and when all checks pass exactly
one HAL `dispatch([x,y,z])` is appended to the trace. -/
theorem claim4_dispatch_validation (st : State) (groups : Nat × Nat × Nat) :
    (st.pipeline = none → dispatch st groups = .err (.dispatch .missingPipeline)) ∧
    (∀ p, st.pipeline = some p → st.binder.invalid_mask ≠ 0 →
      dispatch st groups =
        .err (.dispatch (.incompatibleBindGroup
          (trailingZeros st.binder.invalid_mask) p.plId))) ∧
    (∀ p, st.pipeline = some p → st.binder.invalid_mask = 0 →
      st.binder.list_active.all (fun g => g.late_ok) = true →
      st.binder.list_active.all (fun g => g.merge_ok) = true →
      (groups.1 > st.device.max_compute_workgroups_per_dimension ∨
        groups.2.1 > st.device.max_compute_workgroups_per_dimension ∨
        groups.2.2 > st.device.max_compute_workgroups_per_dimension) →
      dispatch st groups =
        .err (.dispatch (.invalidGroupSize groups
          st.device.max_compute_workgroups_per_dimension))) ∧
    (∀ p, st.pipeline = some p → st.binder.invalid_mask = 0 →
      st.binder.list_active.all (fun g => g.late_ok) = true →
      st.binder.list_active.all (fun g => g.merge_ok) = true →
      groups.1 ≤ st.device.max_compute_workgroups_per_dimension →
      groups.2.1 ≤ st.device.max_compute_workgroups_per_dimension →
      groups.2.2 ≤ st.device.max_compute_workgroups_per_dimension →
      dispatch st groups =
        .ok { st with trace := st.trace ++ [.drainBarriers, .dispatch groups] }) := by
  refine ⟨?_, ?_, ?_, ?_⟩
  · intro h
    simp [dispatch, State.is_ready, h]
  · intro p hp hm
    simp [dispatch, State.is_ready, hp, hm]
  · intro p hp hm hl hf hgt
    have hready : st.is_ready = Except.ok () := by
      simp [State.is_ready, hp, hm, hl]
    have hflush : st.flush_states none =
        Except.ok { st with trace := st.trace ++ [.drainBarriers] } := by
      simp [State.flush_states, hf]
    simp only [dispatch, hready, hflush]
    rw [if_pos hgt]
  · intro p hp hm hl hf h1 h2 h3
    have hready : st.is_ready = Except.ok () := by
      simp [State.is_ready, hp, hm, hl]
    have hflush : st.flush_states none =
        Except.ok { st with trace := st.trace ++ [.drainBarriers] } := by
      simp [State.flush_states, hf]
    simp only [dispatch, hready, hflush]
    rw [if_neg (by omega)]
    simp

/-- C8: every replay handler that references a resource (the bind group
of `SetBindGroup`, the pipeline of `SetPipeline`, the indirect buffer of
`DispatchIndirect`, the query set of `WriteTimestamp`) fails with a
same-device error, before any other check, when the resource's owning
device differs from the parent command encoder's device. -/
theorem claim8_same_device (st : State) (cmd_buf : CommandBufferM) :
    (∀ dyn index n bg, bg.device ≠ cmd_buf.device.devId →
      set_bind_group st cmd_buf dyn index n bg = .err (.device .deviceMismatch)) ∧
    (∀ p, p.device ≠ cmd_buf.device.devId →
      set_pipeline st cmd_buf p = .err (.device .deviceMismatch)) ∧
    (∀ buf off, buf.device ≠ cmd_buf.device.devId →
      dispatch_indirect st cmd_buf buf off = .err (.device .deviceMismatch)) ∧
    (∀ qs i, qs.device ≠ cmd_buf.device.devId →
      write_timestamp st cmd_buf qs i = .err (.device .deviceMismatch)) := by
  refine ⟨?_, ?_, ?_, ?_⟩
  · intro dyn index n bg h
    simp [set_bind_group, h]
  · intro p h
    simp [set_pipeline, h]
  · intro buf off h
    simp [dispatch_indirect, h]
  · intro qs i h
    simp [write_timestamp, h]

/-- C9: replaying `PushDebugGroup` increments `debug_scope_depth` by
one; replaying `PopDebugGroup` at depth zero fails with
`InvalidPopDebugGroup` (the replay aborts, leaving the depth at zero);
otherwise it decrements the depth by one; and over every sequence of
push/pop commands the depth never goes below zero: along every prefix of
a successfully replayed sequence the pops never outnumber the starting
depth plus the pushes. -/
theorem claim9_debug_depth :
    (∀ (st : State) (sd : List Nat) (len : Nat) (st' : State),
      push_debug_group st sd len = .ok st' →
      st'.debug_scope_depth = st.debug_scope_depth + 1) ∧
    (∀ st : State, st.debug_scope_depth = 0 →
      pop_debug_group st = .err .invalidPopDebugGroup) ∧
    (∀ (st : State) (d : Nat), st.debug_scope_depth = d + 1 →
      ∃ st', pop_debug_group st = .ok st' ∧ st'.debug_scope_depth = d) ∧
    (∀ (cmd_buf : CommandBufferM) (base : BasePass ArcComputeCommand)
        (cs : List ArcComputeCommand) (st stF : State),
      (∀ c ∈ cs, (isPushDebugCmd c || isPopDebugCmd c) = true) →
      replayCmds cmd_buf base st cs = (stF, .ok ()) →
      ∀ p q, cs = p ++ q →
        p.countP isPopDebugCmd ≤ st.debug_scope_depth + p.countP isPushDebugCmd) := by
  refine ⟨?_, ?_, ?_, ?_⟩
  · intro st sd len st' h
    exact (push_debug_group_ok_shape st sd len st' h).1
  · intro st h
    simp [pop_debug_group, h]
  · intro st d h
    unfold pop_debug_group
    rw [if_neg (by omega)]
    dsimp only
    split
    · exact ⟨_, rfl, by simp [h]⟩
    · exact ⟨_, rfl, by simp [h]⟩
  · intro cmd_buf base cs st stF hall hrep p
    induction p generalizing st cs with
    | nil => intro q hq; simp
    | cons c p' ih =>
      intro q hq
      subst hq
      obtain ⟨st1, hc, hrest⟩ := replayCmds_cons_ok _ _ _ _ _ _ hrep
      have hcd := hall c (by simp)
      have hall' : ∀ x ∈ p' ++ q, (isPushDebugCmd x || isPopDebugCmd x) = true := by
        intro x hx
        exact hall x (by simp [hx])
      cases c with
      | pushDebugGroup color len =>
        have hd := (push_debug_group_ok_shape _ _ _ _ hc).1
        have := ih (p' ++ q) st1 hall' hrest q rfl
        simp [List.countP_cons, isPushDebugCmd, isPopDebugCmd] at *
        omega
      | popDebugGroup =>
        have hd := pop_debug_group_ok_shape _ _ hc
        have := ih (p' ++ q) st1 hall' hrest q rfl
        simp [List.countP_cons, isPushDebugCmd, isPopDebugCmd] at *
        omega
      | setBindGroup a b e => simp [isPushDebugCmd, isPopDebugCmd] at hcd
      | setPipeline a => simp [isPushDebugCmd, isPopDebugCmd] at hcd
      | setPushConstant a b e => simp [isPushDebugCmd, isPopDebugCmd] at hcd
      | dispatch a => simp [isPushDebugCmd, isPopDebugCmd] at hcd
      | dispatchIndirect a b => simp [isPushDebugCmd, isPopDebugCmd] at hcd
      | insertDebugMarker a b => simp [isPushDebugCmd, isPopDebugCmd] at hcd
      | writeTimestamp a b => simp [isPushDebugCmd, isPopDebugCmd] at hcd
      | beginPipelineStatisticsQuery a b => simp [isPushDebugCmd, isPopDebugCmd] at hcd
      | endPipelineStatisticsQuery => simp [isPushDebugCmd, isPopDebugCmd] at hcd

theorem flush_states_error_shape (st : State) (ib : Option Nat)
    (e : ComputePassErrorInner) (h : st.flush_states ib = .error e) :
    e = .resourceUsageCompatibility := by
  unfold State.flush_states at h
  split at h
  · simp at h
  · cases h
    rfl

theorem set_and_check_redundant_hit (s : BindGroupStateChange) (g i : Nat)
    (dyn offsets : List Nat) (h : assocGet s.slots i = some (g, offsets)) :
    set_and_check_redundant s g i dyn offsets = (s, dyn, true) := by
  simp [set_and_check_redundant, h]

theorem set_bind_group_redundant_drop (hub : HubM) (pass : ComputePass)
    (index g : Nat) (offsets : List Nat) (base : BasePass ArcComputeCommand)
    (hbase : pass.base = some base)
    (hslot : assocGet pass.current_bind_groups.slots index = some (g, offsets)) :
    compute_pass_set_bind_group hub pass index g offsets = (pass, .ok ()) := by
  unfold compute_pass_set_bind_group
  rw [hbase]
  dsimp only
  rw [set_and_check_redundant_hit _ _ _ _ _ hslot]
  dsimp only
  rw [if_pos rfl]
  have hEq : ComputePass.mk (some base) pass.parent pass.timestamp_writes
      pass.current_bind_groups pass.current_pipeline = pass := by
    rw [← hbase]
  exact congrArg (fun p => (p, Except.ok ())) hEq

theorem set_bind_group_slot_after (hub : HubM) (pass : ComputePass)
    (index g : Nat) (offsets : List Nat) (base : BasePass ArcComputeCommand)
    (hbase : pass.base = some base) :
    assocGet
        (compute_pass_set_bind_group hub pass index g offsets).1.current_bind_groups.slots
        index = some (g, offsets) ∧
    ∃ b', (compute_pass_set_bind_group hub pass index g offsets).1.base = some b' := by
  unfold compute_pass_set_bind_group
  rw [hbase]
  dsimp only
  cases hslot : assocGet pass.current_bind_groups.slots index with
  | some st0 =>
    by_cases hc : st0.1 = g ∧ st0.2 = offsets
    · obtain ⟨h1, h2⟩ := hc
      have hslot' : assocGet pass.current_bind_groups.slots index = some (g, offsets) := by
        rw [hslot, ← h1, ← h2]
      rw [set_and_check_redundant_hit _ _ _ _ _ hslot']
      dsimp only
      rw [if_pos rfl]
      exact ⟨hslot', ⟨_, rfl⟩⟩
    · have hm : set_and_check_redundant pass.current_bind_groups g index
          base.dynamic_offsets offsets =
          (⟨assocSet pass.current_bind_groups.slots index (g, offsets)⟩,
            base.dynamic_offsets ++ offsets, false) := by
        simp [set_and_check_redundant, hslot, hc]
      rw [hm]
      dsimp only
      rw [if_neg (by simp)]
      cases assocGet hub.bind_groups g with
      | none => exact ⟨assocGet_assocSet _ _ _, ⟨_, rfl⟩⟩
      | some bg => exact ⟨assocGet_assocSet _ _ _, ⟨_, rfl⟩⟩
  | none =>
    have hm : set_and_check_redundant pass.current_bind_groups g index
        base.dynamic_offsets offsets =
        (⟨assocSet pass.current_bind_groups.slots index (g, offsets)⟩,
          base.dynamic_offsets ++ offsets, false) := by
      simp [set_and_check_redundant, hslot]
    rw [hm]
    dsimp only
    rw [if_neg (by simp)]
    cases assocGet hub.bind_groups g with
    | none => exact ⟨assocGet_assocSet _ _ _, ⟨_, rfl⟩⟩
    | some bg => exact ⟨assocGet_assocSet _ _ _, ⟨_, rfl⟩⟩

/-- C3: the redundancy law.  Recording `SetBindGroup(i, g, o)` twice in
succession with equal group id and equal dynamic offsets yields the same
final recorded pass as recording it once (so any replay of the record,
hence the final HAL trace, agrees); and on a live pass the call is
dropped (returns `Ok` leaving the pass untouched) if and only if the
filter already has slot `i` bound to the same group id with equal stored
dynamic offsets. -/
theorem claim3_set_bind_group_redundancy (hub : HubM) (pass : ComputePass)
    (index g : Nat) (offsets : List Nat) :
    ((compute_pass_set_bind_group hub
        (compute_pass_set_bind_group hub pass index g offsets).1 index g offsets).1 =
      (compute_pass_set_bind_group hub pass index g offsets).1) ∧
    (∀ cmd_buf tw,
      ((compute_pass_set_bind_group hub
          (compute_pass_set_bind_group hub pass index g offsets).1 index g
          offsets).1.base.map (fun b => compute_pass_end_impl cmd_buf b tw)) =
        ((compute_pass_set_bind_group hub pass index g offsets).1.base.map
          (fun b => compute_pass_end_impl cmd_buf b tw))) ∧
    (∀ base, pass.base = some base →
      (((compute_pass_set_bind_group hub pass index g offsets).1 = pass ∧
        (compute_pass_set_bind_group hub pass index g offsets).2 = .ok ()) ↔
        assocGet pass.current_bind_groups.slots index = some (g, offsets))) := by
  have main :
      (compute_pass_set_bind_group hub
        (compute_pass_set_bind_group hub pass index g offsets).1 index g offsets).1 =
      (compute_pass_set_bind_group hub pass index g offsets).1 := by
    cases hbase : pass.base with
    | none =>
      have h1 : compute_pass_set_bind_group hub pass index g offsets =
          (pass, .error ⟨.setBindGroup, .passEnded⟩) := by
        unfold compute_pass_set_bind_group
        rw [hbase]
      rw [h1]
      dsimp only
      rw [h1]
    | some base =>
      obtain ⟨hslot, b', hb'⟩ := set_bind_group_slot_after hub pass index g offsets base hbase
      rw [set_bind_group_redundant_drop hub _ index g offsets b' hb' hslot]
  refine ⟨main, ?_, ?_⟩
  · intro cmd_buf tw
    rw [main]
  · intro base hbase
    constructor
    · rintro ⟨hp, hok⟩
      unfold compute_pass_set_bind_group at hp hok
      rw [hbase] at hp hok
      dsimp only at hp hok
      cases hslot : assocGet pass.current_bind_groups.slots index with
      | some st0 =>
        by_cases hc : st0.1 = g ∧ st0.2 = offsets
        · obtain ⟨h1, h2⟩ := hc
          rw [← h1, ← h2]
        · have hm : set_and_check_redundant pass.current_bind_groups g index
              base.dynamic_offsets offsets =
              (⟨assocSet pass.current_bind_groups.slots index (g, offsets)⟩,
                base.dynamic_offsets ++ offsets, false) := by
            simp [set_and_check_redundant, hslot, hc]
          rw [hm] at hp hok
          dsimp only at hp hok
          rw [if_neg (by simp)] at hp hok
          exfalso
          cases hhub : assocGet hub.bind_groups g with
          | none =>
            rw [hhub] at hok
            simp at hok
          | some bg =>
            rw [hhub] at hp
            dsimp only at hp
            have := congrArg (fun p => p.base.map (fun b => b.commands.length)) hp
            simp [hbase] at this
      | none =>
        have hm : set_and_check_redundant pass.current_bind_groups g index
            base.dynamic_offsets offsets =
            (⟨assocSet pass.current_bind_groups.slots index (g, offsets)⟩,
              base.dynamic_offsets ++ offsets, false) := by
          simp [set_and_check_redundant, hslot]
        rw [hm] at hp hok
        dsimp only at hp hok
        rw [if_neg (by simp)] at hp hok
        exfalso
        cases hhub : assocGet hub.bind_groups g with
        | none =>
          rw [hhub] at hok
          simp at hok
        | some bg =>
          rw [hhub] at hp
          dsimp only at hp
          have := congrArg (fun p => p.base.map (fun b => b.commands.length)) hp
          simp [hbase] at this
    · intro hslot
      rw [set_bind_group_redundant_drop hub pass index g offsets base hbase hslot]
      exact ⟨rfl, rfl⟩

/-- C5 (amended): under the claim's premises, `DispatchIndirect` fails
with `IndirectBufferOverrun` iff `(offset + 12) mod 2^64` exceeds the
buffer size (`u64` wrap-around), with `end_offset = (offset + 12) mod
2^64`; whenever `offset + 12` does not overflow `u64` this condition is
exactly `offset + 12 > buffer.size`. -/
theorem claim5_indirect_overrun_amended (st : State) (cmd_buf : CommandBufferM)
    (buffer : BufferM) (offset : Nat)
    (hdev : buffer.device = cmd_buf.device.devId)
    (hready : st.is_ready = Except.ok ())
    (hflag : st.device.indirect_execution = true)
    (hmerge : buffer.merge_ok = true)
    (husage : buffer.usage_indirect = true) :
    (isOverrunErr (dispatch_indirect st cmd_buf buffer offset) = true ↔
      (offset + 12) % u64Mod > buffer.size) ∧
    ((offset + 12) % u64Mod > buffer.size →
      dispatch_indirect st cmd_buf buffer offset =
        .err (.indirectBufferOverrun offset ((offset + 12) % u64Mod) buffer.size)) ∧
    (offset + 12 < u64Mod →
      ((offset + 12) % u64Mod > buffer.size ↔ offset + 12 > buffer.size)) := by
  have hd : dispatch_indirect st cmd_buf buffer offset =
      (if (offset + 12) % u64Mod > buffer.size then
        .err (.indirectBufferOverrun offset ((offset + 12) % u64Mod) buffer.size)
      else
        match st.flush_states (some buffer.bufId) with
        | .error e => .err e
        | .ok st1 =>
          if buffer.raw_ok then
            .ok { st1 with trace := st1.trace ++ [.dispatchIndirect buffer.bufId offset] }
          else .err .destroyedResource) := by
    unfold dispatch_indirect
    rw [if_neg (by simp [hdev]), hready]
    rw [if_neg (by simp [hflag]), if_neg (by simp [hmerge]), if_neg (by simp [husage])]
  refine ⟨?_, ?_, ?_⟩
  · rw [hd]
    by_cases hgt : (offset + 12) % u64Mod > buffer.size
    · simp [hgt, isOverrunErr]
    · rw [if_neg hgt]
      simp only [hgt, iff_false]
      cases hfl : st.flush_states (some buffer.bufId) with
      | error e =>
        rw [flush_states_error_shape st _ e hfl]
        simp [isOverrunErr]
      | ok st1 =>
        by_cases hr : buffer.raw_ok <;> simp [hr, isOverrunErr]
  · intro hgt
    rw [hd, if_pos hgt]
  · intro hlt
    rw [Nat.mod_eq_of_lt hlt]

/-- C5 counterexample: with every premise of the claim satisfied, a
buffer of size 8 and the offset `2^64 - 12` make the `u64` computation
`offset + 12` wrap to 0, so no `IndirectBufferOverrun` is raised even
though `offset + 12 > buffer.size` mathematically. -/
theorem claim5_counterexample :
    isOverrunErr (dispatch_indirect stReadyW cbW bufW (2 ^ 64 - 12)) = false ∧
    2 ^ 64 - 12 + 12 > bufW.size ∧
    bufW.device = cbW.device.devId ∧ stReadyW.is_ready = Except.ok () ∧
    stReadyW.device.indirect_execution = true ∧ bufW.merge_ok = true ∧
    bufW.usage_indirect = true := by
  decide

/-- The successful recording path of `compute_pass_set_push_constant`:
aligned inputs on a live pass append the word data and a
`SetPushConstant` command. -/
theorem set_push_constant_rec_ok (pass : ComputePass) (offset : Nat)
    (data : List Nat) (base : BasePass ArcComputeCommand)
    (hbase : pass.base = some base)
    (h1 : offset % 4 = 0) (h2 : data.length % 4 = 0)
    (h3 : base.push_constant_data.length < u32Mod) :
    compute_pass_set_push_constant pass offset data =
      ({ pass with base := some { base with
          push_constant_data := base.push_constant_data ++ bytesToWords data,
          commands := base.commands ++
            [.setPushConstant offset (data.length % u32Mod)
              base.push_constant_data.length] } }, .ok ()) := by
  have hmod : data.length % u32Mod % 4 = data.length % 4 :=
    Nat.mod_mod_of_dvd _ (by norm_num [u32Mod])
  unfold compute_pass_set_push_constant
  rw [hbase]
  dsimp only
  rw [if_neg (by omega), if_neg (by omega), if_neg (by omega)]

/-- C6 (amended): on a live pass, `compute_pass_set_push_constant` fails
with `PushConstantOffsetAlignment` when the offset is not 4-aligned,
with `PushConstantSizeAlignment` when the data length is not 4-aligned,
with `PushConstantOutOfMemory` when the running word-buffer length does
not fit in `u32`, and otherwise appends a `SetPushConstant` command whose
`values_offset` is the word-buffer length before the call and whose
`size_bytes` is `data.len()` truncated to `u32` (equal to `data.len()`
whenever it is below `2^32`). -/
theorem claim6_push_constant_amended (pass : ComputePass) (offset : Nat)
    (data : List Nat) (base : BasePass ArcComputeCommand)
    (hbase : pass.base = some base) :
    (offset % 4 ≠ 0 →
      compute_pass_set_push_constant pass offset data =
        (pass, .error ⟨.setPushConstant, .pushConstantOffsetAlignment⟩)) ∧
    (offset % 4 = 0 → data.length % 4 ≠ 0 →
      compute_pass_set_push_constant pass offset data =
        (pass, .error ⟨.setPushConstant, .pushConstantSizeAlignment⟩)) ∧
    (offset % 4 = 0 → data.length % 4 = 0 → u32Mod ≤ base.push_constant_data.length →
      compute_pass_set_push_constant pass offset data =
        (pass, .error ⟨.setPushConstant, .pushConstantOutOfMemory⟩)) ∧
    (offset % 4 = 0 → data.length % 4 = 0 → base.push_constant_data.length < u32Mod →
      compute_pass_set_push_constant pass offset data =
        ({ pass with base := some { base with
            push_constant_data := base.push_constant_data ++ bytesToWords data,
            commands := base.commands ++
              [.setPushConstant offset (data.length % u32Mod)
                base.push_constant_data.length] } }, .ok ())) := by
  have hmod : data.length % u32Mod % 4 = data.length % 4 :=
    Nat.mod_mod_of_dvd _ (by norm_num [u32Mod])
  refine ⟨?_, ?_, ?_, ?_⟩
  · intro h1
    unfold compute_pass_set_push_constant
    rw [hbase]
    dsimp only
    rw [if_pos h1]
  · intro h1 h2
    unfold compute_pass_set_push_constant
    rw [hbase]
    dsimp only
    rw [if_neg (by omega), if_pos (by omega)]
  · intro h1 h2 h3
    unfold compute_pass_set_push_constant
    rw [hbase]
    dsimp only
    rw [if_neg (by omega), if_neg (by omega), if_pos (by omega)]
  · intro h1 h2 h3
    exact set_push_constant_rec_ok pass offset data base hbase h1 h2 h3

/-- C6 counterexample: a 4-aligned data slice of length `2^32` records
successfully, but the recorded command's `size_bytes` is
`2^32 as u32 = 0`, not the claimed `data.len() = 2^32`. -/
theorem claim6_counterexample :
    ((compute_pass_set_push_constant passW 0 (List.replicate (2 ^ 32) 0)).1.base.map
        (fun b => b.commands)) = some [.setPushConstant 0 0 0] ∧
    (compute_pass_set_push_constant passW 0 (List.replicate (2 ^ 32) 0)).2 = .ok () ∧
    (List.replicate (2 ^ 32) (0 : Nat)).length = 2 ^ 32 := by
  have hlen : (List.replicate (2 ^ 32) (0 : Nat)).length = 2 ^ 32 :=
    List.length_replicate _ _
  have h := set_push_constant_rec_ok passW 0 (List.replicate (2 ^ 32) 0)
      (BasePass.mkNew ArcComputeCommand none) rfl (by norm_num)
      (by rw [hlen]; norm_num) (by norm_num [BasePass.mkNew, u32Mod])
  rw [h]
  refine ⟨?_, rfl, hlen⟩
  dsimp only [BasePass.mkNew, Option.map, List.nil_append]
  rw [hlen]
  norm_num [u32Mod]

theorem emitBindEntries_trace_ext (es : List BindGroupM) :
    ∀ (st : State) (i : Nat) (offs : List Nat) (st' : State),
      emitBindEntries st i offs es = .ok st' →
      ∃ t, st'.trace = st.trace ++ t ∧ t.filter isResetQueriesCmd = [] := by
  induction es with
  | nil =>
    intro st i offs st' h
    cases h
    exact ⟨[], by simp, rfl⟩
  | cons e rest ih =>
    intro st i offs st' h
    unfold emitBindEntries at h
    split at h
    · obtain ⟨t, ht, hf⟩ := ih _ _ _ _ h
      refine ⟨HalCmd.setBindGroup i e.bgId offs :: t, ?_, ?_⟩
      · simpa using ht
      · simpa [isResetQueriesCmd] using hf
    · simp at h

theorem flush_states_ok_shape (st : State) (ib : Option Nat) (st1 : State)
    (h : st.flush_states ib = .ok st1) :
    st1 = { st with trace := st.trace ++ [.drainBarriers] } := by
  unfold State.flush_states at h
  split at h
  · cases h
    rfl
  · simp at h

theorem replayCmd_trace_ext (st : State) (cmd_buf : CommandBufferM)
    (base : BasePass ArcComputeCommand) (c : ArcComputeCommand) (st' : State)
    (h : replayCmd st cmd_buf base c = .ok st') :
    ∃ t, st'.trace = st.trace ++ t ∧ t.filter isResetQueriesCmd = [] := by
  cases c with
  | setBindGroup index n bg =>
    simp only [replayCmd] at h
    unfold set_bind_group at h
    repeat' (first | dsimp only at h | split at h)
    all_goals
      first
        | (exfalso; simp at h; done)
        | (cases h; refine ⟨_, rfl, ?_⟩; simp [isResetQueriesCmd]; done)
        | (cases h; refine ⟨[], ?_, rfl⟩; simp; done)
        | (obtain ⟨t, ht, hf⟩ := emitBindEntries_trace_ext _ _ _ _ _ h
           exact ⟨t, by simpa using ht, hf⟩)
  | setPipeline p =>
    simp only [replayCmd] at h
    unfold set_pipeline at h
    repeat' (first | dsimp only at h | split at h)
    all_goals
      first
        | (exfalso; simp at h; done)
        | (cases h; refine ⟨_, rfl, ?_⟩; simp [isResetQueriesCmd]; done)
        | (cases h
           refine ⟨[HalCmd.setComputePipeline p.plId], ?_, ?_⟩ <;>
             simp [isResetQueriesCmd]
           done)
        | (cases h
           refine ⟨HalCmd.setComputePipeline p.plId ::
             p.layout.push_constant_ranges.map
               (fun r => HalCmd.pushConstantClear r.1 (r.2 - r.1)), ?_, ?_⟩
           · simp
           · rw [List.filter_cons, if_neg (by simp [isResetQueriesCmd]),
               List.filter_eq_nil_iff]
             intro a ha
             obtain ⟨r, hr, hra⟩ := List.mem_map.mp ha
             rw [← hra]
             simp [isResetQueriesCmd])
  | setPushConstant o sz v =>
    simp only [replayCmd] at h
    unfold set_push_constant at h
    repeat' (first | dsimp only at h | split at h)
    all_goals
      first
        | (exfalso; simp at h; done)
        | (cases h; refine ⟨_, rfl, ?_⟩; simp [isResetQueriesCmd]; done)
        | (cases h
           refine ⟨[HalCmd.setPushConstants o _], ?_, ?_⟩ <;> simp [isResetQueriesCmd]
           done)
  | dispatch g =>
    simp only [replayCmd] at h
    unfold dispatch at h
    cases hfl : st.flush_states none with
    | error e =>
      rw [hfl] at h
      repeat' (first | dsimp only at h | split at h)
      all_goals (exfalso; simp_all; done)
    | ok st1 =>
      rw [hfl] at h
      obtain rfl := flush_states_ok_shape _ _ _ hfl
      repeat' (first | dsimp only at h | split at h)
      all_goals
        first
          | (exfalso; simp at h; done)
          | (cases h; refine ⟨_, rfl, ?_⟩; simp [isResetQueriesCmd]; done)
          | (cases h
             refine ⟨[HalCmd.drainBarriers, HalCmd.dispatch g], ?_, ?_⟩ <;>
               simp [isResetQueriesCmd]
             done)
  | dispatchIndirect buf o =>
    simp only [replayCmd] at h
    unfold dispatch_indirect at h
    cases hfl : st.flush_states (some buf.bufId) with
    | error e =>
      rw [hfl] at h
      repeat' (first | dsimp only at h | split at h)
      all_goals (exfalso; simp_all; done)
    | ok st1 =>
      rw [hfl] at h
      obtain rfl := flush_states_ok_shape _ _ _ hfl
      repeat' (first | dsimp only at h | split at h)
      all_goals
        first
          | (exfalso; simp at h; done)
          | (cases h; refine ⟨_, rfl, ?_⟩; simp [isResetQueriesCmd]; done)
          | (cases h
             refine ⟨[HalCmd.drainBarriers, HalCmd.dispatchIndirect buf.bufId o],
               ?_, ?_⟩ <;> simp [isResetQueriesCmd]
             done)
  | pushDebugGroup color len =>
    simp only [replayCmd] at h
    unfold push_debug_group at h
    repeat' (first | dsimp only at h | split at h)
    all_goals
      first
        | (exfalso; simp at h; done)
        | (cases h; refine ⟨_, rfl, ?_⟩; simp [isResetQueriesCmd]; done)
        | (cases h; refine ⟨[], ?_, rfl⟩; simp; done)
        | (cases h
           refine ⟨[HalCmd.beginDebugMarker _], ?_, ?_⟩ <;> simp [isResetQueriesCmd]
           done)
  | popDebugGroup =>
    simp only [replayCmd] at h
    unfold pop_debug_group at h
    repeat' (first | dsimp only at h | split at h)
    all_goals
      first
        | (exfalso; simp at h; done)
        | (cases h; refine ⟨_, rfl, ?_⟩; simp [isResetQueriesCmd]; done)
        | (cases h; refine ⟨[], ?_, rfl⟩; simp; done)
        | (cases h
           refine ⟨[HalCmd.endDebugMarker], ?_, ?_⟩ <;> simp [isResetQueriesCmd]
           done)
  | insertDebugMarker color len =>
    simp only [replayCmd] at h
    unfold insert_debug_marker at h
    repeat' (first | dsimp only at h | split at h)
    all_goals
      first
        | (exfalso; simp at h; done)
        | (cases h; refine ⟨_, rfl, ?_⟩; simp [isResetQueriesCmd]; done)
        | (cases h; refine ⟨[], ?_, rfl⟩; simp; done)
        | (cases h
           refine ⟨[HalCmd.insertDebugMarker _], ?_, ?_⟩ <;> simp [isResetQueriesCmd]
           done)
  | writeTimestamp qs i =>
    simp only [replayCmd] at h
    unfold write_timestamp at h
    repeat' (first | dsimp only at h | split at h)
    all_goals
      first
        | (exfalso; simp at h; done)
        | (cases h; refine ⟨_, rfl, ?_⟩; simp [isResetQueriesCmd]; done)
        | (cases h
           refine ⟨[HalCmd.writeTimestamp qs.qsId i], ?_, ?_⟩ <;>
             simp [isResetQueriesCmd]
           done)
  | beginPipelineStatisticsQuery qs i =>
    simp only [replayCmd] at h
    unfold begin_pipeline_statistics_query at h
    repeat' (first | dsimp only at h | split at h)
    all_goals
      first
        | (exfalso; simp at h; done)
        | (cases h; refine ⟨_, rfl, ?_⟩; simp [isResetQueriesCmd]; done)
        | (cases h
           refine ⟨[HalCmd.beginPipelineStatsQuery qs.qsId i], ?_, ?_⟩ <;>
             simp [isResetQueriesCmd]
           done)
  | endPipelineStatisticsQuery =>
    simp only [replayCmd] at h
    unfold end_pipeline_statistics_query at h
    repeat' (first | dsimp only at h | split at h)
    all_goals
      first
        | (exfalso; simp at h; done)
        | (cases h; refine ⟨_, rfl, ?_⟩; simp [isResetQueriesCmd]; done)
        | (cases h
           refine ⟨[HalCmd.endPipelineStatsQuery], ?_, ?_⟩ <;>
             simp [isResetQueriesCmd]
           done)

theorem replayCmds_trace_ext (cmd_buf : CommandBufferM)
    (base : BasePass ArcComputeCommand) (cs : List ArcComputeCommand) :
    ∀ st : State,
      ∃ t, (replayCmds cmd_buf base st cs).1.trace = st.trace ++ t ∧
        t.filter isResetQueriesCmd = [] := by
  induction cs with
  | nil =>
    intro st
    exact ⟨[], by simp [replayCmds], rfl⟩
  | cons c rest ih =>
    intro st
    unfold replayCmds
    cases hc : replayCmd st cmd_buf base c with
    | ok st1 =>
      obtain ⟨t1, ht1, hf1⟩ := replayCmd_trace_ext st cmd_buf base c st1 hc
      obtain ⟨t2, ht2, hf2⟩ := ih st1
      refine ⟨t1 ++ t2, ?_, ?_⟩
      · rw [ht2, ht1, List.append_assoc]
      · rw [List.filter_append, hf1, hf2]
        rfl
    | err e => exact ⟨[], by simp, rfl⟩
    | panicked => exact ⟨[], by simp, rfl⟩

theorem end_impl_trace_filter (cmd_buf : CommandBufferM)
    (base : BasePass ArcComputeCommand) (tw : Option ArcComputePassTimestampWrites)
    (hvalid : cmd_buf.device.valid = true)
    (hclose : (cmd_buf.encoder.closeStep).2 = true)
    (hopen : ((cmd_buf.encoder.closeStep).1.openStep).2 = true) :
    (compute_pass_end_impl cmd_buf base tw).trace.filter isResetQueriesCmd =
      (match tw with
        | some t =>
          match timestampResetRange t.beginning_of_pass_write_index
              t.end_of_pass_write_index with
          | some r => [HalCmd.resetQueries t.query_set.qsId r.1 r.2]
          | none => []
        | none => []) ∧
    HalCmd.beginComputePass base.label ∈ (compute_pass_end_impl cmd_buf base tw).trace := by
  unfold compute_pass_end_impl
  rw [if_neg (by simp [hvalid])]
  try dsimp only
  rw [if_neg (by simp [hclose])]
  try dsimp only
  rw [if_neg (by simp [hopen])]
  try dsimp only
  set resetTrace : List HalCmd :=
    (match tw with
      | some t =>
        match timestampResetRange t.beginning_of_pass_write_index
            t.end_of_pass_write_index with
        | some r => [HalCmd.resetQueries t.query_set.qsId r.1 r.2]
        | none => []
      | none => []) with hreset
  have hbase0 :
      ∃ t, (replayCmds { cmd_buf with
          encoder := ((cmd_buf.encoder.closeStep).1.openStep).1,
          status := CommandEncoderStatus.error } base
          { initState cmd_buf.device with
              trace := resetTrace ++ [HalCmd.beginComputePass base.label] }
          base.commands).1.trace =
        (resetTrace ++ [HalCmd.beginComputePass base.label]) ++ t ∧
        t.filter isResetQueriesCmd = [] :=
    replayCmds_trace_ext _ _ _ _
  obtain ⟨t, ht, hf⟩ := hbase0
  have hresetfilter : resetTrace.filter isResetQueriesCmd = resetTrace := by
    rw [hreset]
    match tw with
    | some twv =>
      dsimp only
      match timestampResetRange twv.beginning_of_pass_write_index
          twv.end_of_pass_write_index with
      | some r => simp [isResetQueriesCmd]
      | none => rfl
    | none => rfl
  have key : ∀ tail : List HalCmd, tail.filter isResetQueriesCmd = [] →
      ((resetTrace ++ [HalCmd.beginComputePass base.label]) ++ tail).filter
        isResetQueriesCmd = resetTrace ∧
      HalCmd.beginComputePass base.label ∈
        (resetTrace ++ [HalCmd.beginComputePass base.label]) ++ tail := by
    intro tail htail
    constructor
    · rw [List.filter_append, List.filter_append, htail, hresetfilter]
      simp [isResetQueriesCmd]
    · simp
  have assocEq : ((resetTrace ++ [HalCmd.beginComputePass base.label]) ++ t) ++
      [HalCmd.endComputePass] =
      (resetTrace ++ [HalCmd.beginComputePass base.label]) ++
        (t ++ [HalCmd.endComputePass]) := by
    simp
  have hkey2 := key (t ++ [HalCmd.endComputePass])
    (by rw [List.filter_append, hf]; simp [isResetQueriesCmd])
  split
  · try dsimp only
    rw [ht]
    exact key t hf
  · try dsimp only
    rw [ht]
    exact key t hf
  · try dsimp only
    split
    · try dsimp only
      rw [ht, assocEq]
      exact hkey2
    · try dsimp only
      split
      · try dsimp only
        rw [ht, assocEq]
        exact hkey2
      · try dsimp only
        split
        · try dsimp only
          rw [ht, assocEq]
          exact hkey2
        · try dsimp only
          rw [ht, assocEq]
          exact hkey2

/-- C7: during finalization with a timestamp-write binding present and
the encoder reachable (valid device, successful close and open), exactly
one HAL `reset_queries` over `min(a,b)..max(a,b)+1` is emitted when both
write indices are present; over `i..i+1` when exactly one index `i` is
present; and when both are absent no `reset_queries` is emitted while
finalization still proceeds to `begin_compute_pass`. -/
theorem claim7_timestamp_reset (cmd_buf : CommandBufferM)
    (base : BasePass ArcComputeCommand) (tw : ArcComputePassTimestampWrites)
    (hvalid : cmd_buf.device.valid = true)
    (hclose : (cmd_buf.encoder.closeStep).2 = true)
    (hopen : ((cmd_buf.encoder.closeStep).1.openStep).2 = true) :
    (∀ a b, tw.beginning_of_pass_write_index = some a →
      tw.end_of_pass_write_index = some b →
      (compute_pass_end_impl cmd_buf base (some tw)).trace.filter isResetQueriesCmd =
        [.resetQueries tw.query_set.qsId (min a b) (max a b + 1)]) ∧
    (∀ a, tw.beginning_of_pass_write_index = some a →
      tw.end_of_pass_write_index = none →
      (compute_pass_end_impl cmd_buf base (some tw)).trace.filter isResetQueriesCmd =
        [.resetQueries tw.query_set.qsId a (a + 1)]) ∧
    (∀ b, tw.beginning_of_pass_write_index = none →
      tw.end_of_pass_write_index = some b →
      (compute_pass_end_impl cmd_buf base (some tw)).trace.filter isResetQueriesCmd =
        [.resetQueries tw.query_set.qsId b (b + 1)]) ∧
    (tw.beginning_of_pass_write_index = none →
      tw.end_of_pass_write_index = none →
      (compute_pass_end_impl cmd_buf base (some tw)).trace.filter isResetQueriesCmd = [] ∧
      HalCmd.beginComputePass base.label ∈
        (compute_pass_end_impl cmd_buf base (some tw)).trace) := by
  have main := end_impl_trace_filter cmd_buf base (some tw) hvalid hclose hopen
  have h1 := main.1
  dsimp only at h1
  refine ⟨?_, ?_, ?_, ?_⟩
  · intro a b ha hb
    rw [ha, hb] at h1
    simpa [timestampResetRange] using h1
  · intro a ha hb
    rw [ha, hb] at h1
    simpa [timestampResetRange] using h1
  · intro b ha hb
    rw [ha, hb] at h1
    simpa [timestampResetRange] using h1
  · intro ha hb
    rw [ha, hb] at h1
    refine ⟨?_, main.2⟩
    simpa [timestampResetRange] using h1

theorem compute_pass_end_ok_base_none (pass : ComputePass)
    (h : (compute_pass_end pass).2 = .ok ()) :
    (compute_pass_end pass).1.base = none := by
  unfold compute_pass_end at h ⊢
  split at h
  · simp at h
  · rename_i cmd_buf heqp
    dsimp only at h ⊢
    split at h
    · simp at h
    · rename_i hunlock
      rw [if_neg hunlock]
      split at h
      · simp at h
      · rename_i bs heqb
        first
          | rfl
          | (rw [heqb]; rfl)
          | (dsimp only; rfl)
          | (rw [heqb]; dsimp only; rfl)

theorem compute_pass_end_base_none_fails (pass : ComputePass)
    (h : pass.base = none) : (compute_pass_end pass).2 ≠ .ok () := by
  unfold compute_pass_end
  split
  · simp
  · dsimp only
    split
    · simp
    · rw [h]
      simp

/-- C2 (amended): every recording operation on a pass whose record has
been taken fails with `PassEnded` (including `SetPipeline` /
`SetBindGroup` calls the redundancy filter would drop: the ended check
precedes the redundant early-out); `compute_pass_end` on a pass with no
parent command buffer fails with `InvalidParentEncoder`, while recording
operations check only the record and never report
`InvalidParentEncoder`; and once the record is taken at end-of-pass it
never reappears, so a second `compute_pass_end` fails rather than
replaying twice. -/
theorem claim2_lifecycle_errors :
    (∀ (hub : HubM) (pass : ComputePass) (op : RecordOp), pass.base = none →
      (applyRecordOp hub pass op).2 = .error ⟨opScope op, .passEnded⟩) ∧
    (∀ pass : ComputePass, pass.parent = none →
      compute_pass_end pass = (pass, .err ⟨.pass none, .invalidParentEncoder⟩)) ∧
    (∀ (hub : HubM) (pass : ComputePass) (op : RecordOp)
        (b : BasePass ArcComputeCommand), pass.base = some b →
      ∀ s, (applyRecordOp hub pass op).2 ≠ .error ⟨s, .invalidParentEncoder⟩) ∧
    (∀ pass : ComputePass, (compute_pass_end pass).2 = .ok () →
      (compute_pass_end pass).1.base = none) ∧
    (∀ pass : ComputePass, pass.base = none → (compute_pass_end pass).2 ≠ .ok ()) ∧
    (∀ pass : ComputePass, (compute_pass_end pass).2 = .ok () →
      (compute_pass_end ((compute_pass_end pass).1)).2 ≠ .ok ()) := by
  refine ⟨?_, ?_, ?_, ?_, ?_, ?_⟩
  · intro hub pass op h
    cases op <;>
      simp [applyRecordOp, opScope, compute_pass_set_bind_group,
        compute_pass_set_pipeline, compute_pass_set_push_constant,
        compute_pass_dispatch_workgroups, compute_pass_dispatch_workgroups_indirect,
        compute_pass_push_debug_group, compute_pass_pop_debug_group,
        compute_pass_insert_debug_marker, compute_pass_write_timestamp,
        compute_pass_begin_pipeline_statistics_query,
        compute_pass_end_pipeline_statistics_query, h]
  · intro pass h
    unfold compute_pass_end
    rw [h]
  · intro hub pass op b hb s
    cases op <;>
      (simp only [applyRecordOp, opScope, compute_pass_set_bind_group,
        compute_pass_set_pipeline, compute_pass_set_push_constant,
        compute_pass_dispatch_workgroups, compute_pass_dispatch_workgroups_indirect,
        compute_pass_push_debug_group, compute_pass_pop_debug_group,
        compute_pass_insert_debug_marker, compute_pass_write_timestamp,
        compute_pass_begin_pipeline_statistics_query,
        compute_pass_end_pipeline_statistics_query, hb]
       repeat' (first | dsimp only | split)) <;>
      simp
  · exact compute_pass_end_ok_base_none
  · exact compute_pass_end_base_none_fails
  · intro pass h
    exact compute_pass_end_base_none_fails _ (compute_pass_end_ok_base_none pass h)

/-- C2 counterexample: a pass with no parent command buffer but a live
record accepts a recording call with `Ok` instead of failing with
`InvalidParentEncoder`. -/
theorem claim2_counterexample :
    passNoParentW.parent = none ∧
    (applyRecordOp hubEmptyW passNoParentW .popDebugGroup).2 = .ok () := by
  decide

/-- C2 witness: a concrete ended pass rejects a dispatch recording with
`PassEnded`, and a concrete ended-then-ended-again sequence fails. -/
theorem claim2_witness :
    (applyRecordOp hubEmptyW passEndedW (.dispatchWorkgroups 1 1 1)).2 =
      .error ⟨.dispatch false, .passEnded⟩ ∧
    (applyRecordOp hubEmptyW passEndedW (.setPipeline 0)).2 =
      .error ⟨.setPipelineCompute, .passEnded⟩ ∧
    compute_pass_end passNoParentW =
      (passNoParentW, .err ⟨.pass none, .invalidParentEncoder⟩) ∧
    (compute_pass_end ((compute_pass_end passW).1)).2 ≠ .ok () := by
  refine ⟨?_, ?_, ?_, ?_⟩
  · exact claim2_lifecycle_errors.1 hubEmptyW passEndedW (.dispatchWorkgroups 1 1 1) rfl
  · exact claim2_lifecycle_errors.1 hubEmptyW passEndedW (.setPipeline 0) rfl
  · exact claim2_lifecycle_errors.2.1 passNoParentW rfl
  · exact claim2_lifecycle_errors.2.2.2.2.2 passW (by decide)

set_option maxHeartbeats 2000000 in
/-- C1 (amended): `compute_pass_end_impl` sets the encoder status to
`Error` after the initial device check and encoder close and before
replay; any error from then until the status restore leaves the status
`Error` and is returned; the status is restored to `Recording` exactly
when the device check, the encoder close/open and every per-command
replay succeeded (steps 1-11), and the pre-body splice (steps 12-14)
runs only then; the whole finalization succeeds iff `close_and_swap`
completed; errors in the splice steps are still returned to the caller
but occur after the restore, leaving the status `Recording`, and
failures of the initial device check or encoder close leave the status
as it was. -/
theorem claim1_finalization_control_flow (cb : CommandBufferM)
    (base : BasePass ArcComputeCommand)
    (tw : Option ArcComputePassTimestampWrites) :
    ((compute_pass_end_impl cb base tw).result = .ok () ↔
      FinalEvent.closeAndSwap ∈ (compute_pass_end_impl cb base tw).events) ∧
    ((compute_pass_end_impl cb base tw).result = .ok () →
      (compute_pass_end_impl cb base tw).cmd_buf.status =
        CommandEncoderStatus.recording) ∧
    (FinalEvent.statusSetRecording ∈ (compute_pass_end_impl cb base tw).events →
      (compute_pass_end_impl cb base tw).cmd_buf.status =
        CommandEncoderStatus.recording) ∧
    (FinalEvent.statusSetError ∈ (compute_pass_end_impl cb base tw).events →
      FinalEvent.statusSetRecording ∈ (compute_pass_end_impl cb base tw).events ∨
      (compute_pass_end_impl cb base tw).cmd_buf.status =
        CommandEncoderStatus.error) ∧
    (FinalEvent.preBodyOpened ∈ (compute_pass_end_impl cb base tw).events →
      FinalEvent.statusSetRecording ∈ (compute_pass_end_impl cb base tw).events) ∧
    (FinalEvent.closeAndSwap ∈ (compute_pass_end_impl cb base tw).events →
      FinalEvent.preBodyOpened ∈ (compute_pass_end_impl cb base tw).events) ∧
    (FinalEvent.statusSetRecording ∈ (compute_pass_end_impl cb base tw).events →
      FinalEvent.bodyOpened ∈ (compute_pass_end_impl cb base tw).events) ∧
    (FinalEvent.bodyOpened ∈ (compute_pass_end_impl cb base tw).events →
      FinalEvent.statusSetError ∈ (compute_pass_end_impl cb base tw).events) ∧
    (cb.device.valid = false →
      (compute_pass_end_impl cb base tw).cmd_buf.status = cb.status ∧
      ∃ e, (compute_pass_end_impl cb base tw).result = RRes.err e) ∧
    (cb.device.valid = true → (cb.encoder.closeStep).2 = false →
      (compute_pass_end_impl cb base tw).cmd_buf.status = cb.status ∧
      ∃ e, (compute_pass_end_impl cb base tw).result = RRes.err e) ∧
    (cb.device.valid = true → (cb.encoder.closeStep).2 = true →
      ((cb.encoder.closeStep).1.openStep).2 = false →
      (compute_pass_end_impl cb base tw).cmd_buf.status =
        CommandEncoderStatus.error ∧
      ∃ e, (compute_pass_end_impl cb base tw).result = RRes.err e) := by
  refine ⟨?_, ?_, ?_, ?_, ?_, ?_, ?_, ?_, ?_, ?_, ?_⟩ <;>
    (unfold compute_pass_end_impl
     repeat' (first | dsimp only | split)) <;>
    simp_all

/-- C1 counterexample: with a valid device, an all-successful replay of
an empty record and an encoder whose second `close` (the body close of
step 12) fails, finalization returns an error even though the status was
already restored to `Recording` — contradicting the claim that any error
during finalization leaves the encoder status as `Error`. -/
theorem claim1_counterexample :
    (compute_pass_end_impl cbClose2FailW emptyBaseW none).result =
      RRes.err ⟨.pass (some 0), .encoder⟩ ∧
    (compute_pass_end_impl cbClose2FailW emptyBaseW none).cmd_buf.status =
      CommandEncoderStatus.recording := by
  decide

/-- C1 witness: on a concrete all-successful finalization the theorem
yields a `Recording` final status, and on a concrete invalid device it
yields an unchanged status with an error result. -/
theorem claim1_witness :
    (compute_pass_end_impl cbW emptyBaseW none).cmd_buf.status =
      CommandEncoderStatus.recording ∧
    FinalEvent.closeAndSwap ∈ (compute_pass_end_impl cbW emptyBaseW none).events ∧
    (compute_pass_end_impl ⟨0, devBadW, .recording, encW⟩ emptyBaseW none).cmd_buf.status =
      CommandEncoderStatus.recording := by
  have h := claim1_finalization_control_flow cbW emptyBaseW none
  have h2 := claim1_finalization_control_flow ⟨0, devBadW, .recording, encW⟩
    emptyBaseW none
  refine ⟨h.2.1 (by decide), h.1.mp (by decide), ?_⟩
  have := (h2.2.2.2.2.2.2.2.2.1 (by decide)).1
  rw [this]

theorem sliceRange_isSome (l : List Nat) (s n : Nat) (h : s + n ≤ l.length) :
    sliceRange l s n = some ((l.drop s).take n) := by
  unfold sliceRange
  rw [if_pos h]

theorem sliceStartEnd_isSome (l : List Nat) (s e : Nat) (h1 : s ≤ e)
    (h2 : e ≤ l.length) :
    sliceStartEnd l s e = some ((l.drop s).take (e - s)) := by
  unfold sliceStartEnd
  rw [if_pos ⟨h1, h2⟩]

theorem slice_append_left (l e : List Nat) (s n : Nat) (h : s + n ≤ l.length) :
    ((l ++ e).drop s).take n = (l.drop s).take n := by
  rw [List.drop_append_of_le_length (by omega),
    List.take_append_of_le_length (by simp; omega)]

theorem bytesToWords_length : ∀ l : List Nat, (bytesToWords l).length = l.length / 4
  | [] => by simp [bytesToWords]
  | [a] => by simp [bytesToWords]
  | [a, b] => by simp [bytesToWords]
  | [a, b, c] => by simp [bytesToWords]
  | a :: b :: c :: d :: rest => by
    simp [bytesToWords, bytesToWords_length rest]
    omega

theorem cmdsOk_append (dyn strD : List Nat) (pcLen : Nat)
    (cs cs' : List ArcComputeCommand) :
    ∀ dc so, cmdsOk dyn strD pcLen (cs ++ cs') dc so ↔
      (cmdsOk dyn strD pcLen cs dc so ∧
        cmdsOk dyn strD pcLen cs' (dc + dynCount cs) (so + strCount cs)) := by
  induction cs with
  | nil =>
    intro dc so
    simp [cmdsOk, dynCount, strCount]
  | cons c rest ih =>
    intro dc so
    cases c <;>
      simp [cmdsOk, dynCount, strCount, ih, and_assoc, Nat.add_assoc]

theorem cmdsOk_mono (dyn strD d2 s2 : List Nat) (pcLen pcLen' : Nat)
    (hpc : pcLen ≤ pcLen') (cs : List ArcComputeCommand) :
    ∀ dc so, cmdsOk dyn strD pcLen cs dc so →
      cmdsOk (dyn ++ d2) (strD ++ s2) pcLen' cs dc so := by
  induction cs with
  | nil =>
    intro dc so h
    trivial
  | cons c rest ih =>
    intro dc so h
    cases c <;> simp only [cmdsOk] at h ⊢
    case setBindGroup =>
      exact ⟨by simp; omega, ih _ _ h.2⟩
    case setPushConstant =>
      exact ⟨by omega, ih _ _ h.2⟩
    case pushDebugGroup =>
      refine ⟨by simp; omega, ?_, ih _ _ h.2.2⟩
      rw [slice_append_left _ _ _ _ h.1]
      exact h.2.1
    case insertDebugMarker =>
      refine ⟨by simp; omega, ?_, ih _ _ h.2.2⟩
      rw [slice_append_left _ _ _ _ h.1]
      exact h.2.1
    all_goals exact ih _ _ h

theorem emitBindEntries_counters (es : List BindGroupM) :
    ∀ (st : State) (i : Nat) (offs : List Nat) (st' : State),
      emitBindEntries st i offs es = .ok st' →
      st'.dynamic_offset_count = st.dynamic_offset_count ∧
      st'.string_offset = st.string_offset := by
  induction es with
  | nil =>
    intro st i offs st' h
    cases h
    exact ⟨rfl, rfl⟩
  | cons e rest ih =>
    intro st i offs st' h
    unfold emitBindEntries at h
    split at h
    · have hr := ih _ _ _ _ h
      exact ⟨by simpa using hr.1, by simpa using hr.2⟩
    · simp at h

theorem emitBindEntries_no_panic (es : List BindGroupM) :
    ∀ (st : State) (i : Nat) (offs : List Nat),
      emitBindEntries st i offs es ≠ .panicked := by
  induction es with
  | nil =>
    intro st i offs
    simp [emitBindEntries]
  | cons e rest ih =>
    intro st i offs
    unfold emitBindEntries
    split
    · exact ih _ _ _
    · simp

theorem replayCmd_counters (st : State) (cmd_buf : CommandBufferM)
    (base : BasePass ArcComputeCommand) (c : ArcComputeCommand) (st' : State)
    (h : replayCmd st cmd_buf base c = .ok st') :
    st'.dynamic_offset_count = st.dynamic_offset_count + dynCount [c] ∧
    st'.string_offset = st.string_offset + strCount [c] := by
  cases c with
  | setBindGroup index n bg =>
    simp only [replayCmd] at h
    unfold set_bind_group at h
    repeat' (first | dsimp only at h | split at h)
    all_goals
      first
        | (exfalso; simp at h; done)
        | (cases h; constructor <;> simp [dynCount, strCount])
        | (obtain ⟨h1, h2⟩ := emitBindEntries_counters _ _ _ _ _ h
           refine ⟨?_, ?_⟩ <;> simp_all [dynCount, strCount] <;> omega)
  | dispatch g =>
    simp only [replayCmd] at h
    unfold dispatch at h
    cases hfl : st.flush_states none with
    | error e =>
      rw [hfl] at h
      repeat' (first | dsimp only at h | split at h)
      all_goals (exfalso; simp_all; done)
    | ok st1 =>
      rw [hfl] at h
      obtain rfl := flush_states_ok_shape _ _ _ hfl
      repeat' (first | dsimp only at h | split at h)
      all_goals
        first
          | (exfalso; simp at h; done)
          | (cases h; constructor <;> simp [dynCount, strCount])
  | dispatchIndirect buf o =>
    simp only [replayCmd] at h
    unfold dispatch_indirect at h
    cases hfl : st.flush_states (some buf.bufId) with
    | error e =>
      rw [hfl] at h
      repeat' (first | dsimp only at h | split at h)
      all_goals (exfalso; simp_all; done)
    | ok st1 =>
      rw [hfl] at h
      obtain rfl := flush_states_ok_shape _ _ _ hfl
      repeat' (first | dsimp only at h | split at h)
      all_goals
        first
          | (exfalso; simp at h; done)
          | (cases h; constructor <;> simp [dynCount, strCount])
  | setPipeline p =>
    simp only [replayCmd] at h
    unfold set_pipeline at h
    repeat' (first | dsimp only at h | split at h)
    all_goals
      first
        | (exfalso; simp at h; done)
        | (cases h; constructor <;> simp [dynCount, strCount])
  | setPushConstant o sz v =>
    simp only [replayCmd] at h
    unfold set_push_constant at h
    repeat' (first | dsimp only at h | split at h)
    all_goals
      first
        | (exfalso; simp at h; done)
        | (cases h; constructor <;> simp [dynCount, strCount])
  | pushDebugGroup color len =>
    simp only [replayCmd] at h
    unfold push_debug_group at h
    repeat' (first | dsimp only at h | split at h)
    all_goals
      first
        | (exfalso; simp at h; done)
        | (cases h; constructor <;> simp [dynCount, strCount])
  | popDebugGroup =>
    simp only [replayCmd] at h
    unfold pop_debug_group at h
    repeat' (first | dsimp only at h | split at h)
    all_goals
      first
        | (exfalso; simp at h; done)
        | (cases h; constructor <;> simp [dynCount, strCount])
  | insertDebugMarker color len =>
    simp only [replayCmd] at h
    unfold insert_debug_marker at h
    repeat' (first | dsimp only at h | split at h)
    all_goals
      first
        | (exfalso; simp at h; done)
        | (cases h; constructor <;> simp [dynCount, strCount])
  | writeTimestamp qs i =>
    simp only [replayCmd] at h
    unfold write_timestamp at h
    repeat' (first | dsimp only at h | split at h)
    all_goals
      first
        | (exfalso; simp at h; done)
        | (cases h; constructor <;> simp [dynCount, strCount])
  | beginPipelineStatisticsQuery qs i =>
    simp only [replayCmd] at h
    unfold begin_pipeline_statistics_query at h
    repeat' (first | dsimp only at h | split at h)
    all_goals
      first
        | (exfalso; simp at h; done)
        | (cases h; constructor <;> simp [dynCount, strCount])
  | endPipelineStatisticsQuery =>
    simp only [replayCmd] at h
    unfold end_pipeline_statistics_query at h
    repeat' (first | dsimp only at h | split at h)
    all_goals
      first
        | (exfalso; simp at h; done)
        | (cases h; constructor <;> simp [dynCount, strCount])

theorem replayCmd_no_panic (st : State) (cmd_buf : CommandBufferM)
    (base : BasePass ArcComputeCommand) (c : ArcComputeCommand)
    (hpc : base.push_constant_data.length < u32Mod)
    (h : cmdsOk base.dynamic_offsets base.string_data
      base.push_constant_data.length [c] st.dynamic_offset_count st.string_offset) :
    replayCmd st cmd_buf base c ≠ .panicked := by
  cases c with
  | setBindGroup index n bg =>
    simp only [cmdsOk] at h
    have hs := sliceRange_isSome base.dynamic_offsets st.dynamic_offset_count n h.1
    simp only [replayCmd]
    unfold set_bind_group
    rw [hs]
    repeat' (first | dsimp only | split)
    all_goals first | (exact emitBindEntries_no_panic _ _ _ _) | simp
  | setPushConstant o sz v =>
    simp only [cmdsOk] at h
    have hlt : v + sz / 4 < u32Mod := lt_of_le_of_lt h.1 hpc
    have hmod : (v + sz / 4) % u32Mod = v + sz / 4 := Nat.mod_eq_of_lt hlt
    have hs := sliceStartEnd_isSome base.push_constant_data v (v + sz / 4)
      (Nat.le_add_right _ _) h.1
    simp only [replayCmd]
    unfold set_push_constant
    dsimp only
    rw [hmod, hs]
    repeat' (first | dsimp only | split)
    all_goals simp
  | pushDebugGroup color len =>
    simp only [cmdsOk] at h
    obtain ⟨hb, hu, -⟩ := h
    have hs := sliceRange_isSome base.string_data st.string_offset len hb
    simp only [replayCmd]
    unfold push_debug_group
    dsimp only
    rw [hs]
    repeat' (first | dsimp only | split)
    all_goals first | (simp; done) | simp_all
  | insertDebugMarker color len =>
    simp only [cmdsOk] at h
    obtain ⟨hb, hu, -⟩ := h
    have hs := sliceRange_isSome base.string_data st.string_offset len hb
    simp only [replayCmd]
    unfold insert_debug_marker
    try dsimp only
    rw [hs]
    repeat' (first | dsimp only | split)
    all_goals first | (simp; done) | simp_all
  | setPipeline p =>
    simp only [replayCmd]
    unfold set_pipeline
    repeat' (first | dsimp only | split)
    all_goals simp
  | dispatch g =>
    simp only [replayCmd]
    unfold dispatch
    repeat' (first | dsimp only | split)
    all_goals simp
  | dispatchIndirect buf o =>
    simp only [replayCmd]
    unfold dispatch_indirect
    repeat' (first | dsimp only | split)
    all_goals simp
  | popDebugGroup =>
    simp only [replayCmd]
    unfold pop_debug_group
    repeat' (first | dsimp only | split)
    all_goals simp
  | writeTimestamp qs i =>
    simp only [replayCmd]
    unfold write_timestamp
    repeat' (first | dsimp only | split)
    all_goals simp
  | beginPipelineStatisticsQuery qs i =>
    simp only [replayCmd]
    unfold begin_pipeline_statistics_query
    repeat' (first | dsimp only | split)
    all_goals simp
  | endPipelineStatisticsQuery =>
    simp only [replayCmd]
    unfold end_pipeline_statistics_query
    repeat' (first | dsimp only | split)
    all_goals simp

theorem replayCmds_no_panic (cmd_buf : CommandBufferM)
    (base : BasePass ArcComputeCommand) (cs : List ArcComputeCommand)
    (hpc : base.push_constant_data.length < u32Mod) :
    ∀ st : State,
      cmdsOk base.dynamic_offsets base.string_data
        base.push_constant_data.length cs st.dynamic_offset_count st.string_offset →
      (replayCmds cmd_buf base st cs).2 ≠ .panicked := by
  induction cs with
  | nil =>
    intro st h
    simp [replayCmds]
  | cons c rest ih =>
    intro st h
    have h' := (cmdsOk_append base.dynamic_offsets base.string_data
      base.push_constant_data.length [c] rest st.dynamic_offset_count
      st.string_offset).mp h
    unfold replayCmds
    cases hc : replayCmd st cmd_buf base c with
    | err e => simp
    | panicked => exact absurd hc (replayCmd_no_panic st cmd_buf base c hpc h'.1)
    | ok st1 =>
      dsimp only
      obtain ⟨hdc, hso⟩ := replayCmd_counters st cmd_buf base c st1 hc
      apply ih st1
      rw [hdc, hso]
      exact h'.2

theorem dynCount_append (cs cs' : List ArcComputeCommand) :
    dynCount (cs ++ cs') = dynCount cs + dynCount cs' := by
  induction cs with
  | nil => simp [dynCount]
  | cons c rest ih => cases c <;> simp [dynCount, ih] <;> omega

theorem strCount_append (cs cs' : List ArcComputeCommand) :
    strCount (cs ++ cs') = strCount cs + strCount cs' := by
  induction cs with
  | nil => simp [strCount]
  | cons c rest ih => cases c <;> simp [strCount, ih] <;> omega

theorem recordInv_new (parent : Option CommandBufferM) (label : Option (List Nat))
    (tw : Option ArcComputePassTimestampWrites) :
    recordInv (ComputePass.mkNew parent label tw) := by
  intro b hb
  simp only [ComputePass.mkNew, BasePass.mkNew] at hb
  cases hb
  exact ⟨trivial, by simp [dynCount], by simp [strCount]⟩

theorem recordInv_step (hub : HubM) (pass : ComputePass) (op : RecordOp)
    (hwf : op.wfLabels) (h : recordInv pass) :
    recordInv (applyRecordOp hub pass op).1 := by
  cases op with
  | setBindGroup i g o =>
    simp only [applyRecordOp]
    cases hbase : pass.base with
    | none =>
      unfold compute_pass_set_bind_group
      rw [hbase]
      exact h
    | some base =>
      obtain ⟨hok, hdyn, hstr⟩ := h base hbase
      by_cases hred : assocGet pass.current_bind_groups.slots i = some (g, o)
      · rw [set_bind_group_redundant_drop hub pass i g o base hbase hred]
        exact h
      · have hm : set_and_check_redundant pass.current_bind_groups g i
            base.dynamic_offsets o =
            (⟨assocSet pass.current_bind_groups.slots i (g, o)⟩,
              base.dynamic_offsets ++ o, false) := by
          unfold set_and_check_redundant
          cases hslot : assocGet pass.current_bind_groups.slots i with
          | none => rfl
          | some st0 =>
            rw [hslot] at hred
            have hcond : ¬(st0.1 = g ∧ st0.2 = o) := by
              intro hh
              apply hred
              obtain ⟨a, b2⟩ := st0
              obtain ⟨h1, h2⟩ := hh
              simp_all
            dsimp only
            rw [if_neg hcond]
        unfold compute_pass_set_bind_group
        rw [hbase]
        dsimp only
        rw [hm]
        dsimp only
        rw [if_neg (by simp)]
        cases hhub : assocGet hub.bind_groups g with
        | none =>
          intro b hb
          cases hb
          dsimp only
          refine ⟨?_, ?_, ?_⟩
          · have := cmdsOk_mono base.dynamic_offsets base.string_data o []
              base.push_constant_data.length base.push_constant_data.length le_rfl
              base.commands 0 0 hok
            simpa using this
          · simp only [List.length_append]
            omega
          · exact hstr
        | some bg =>
          intro b hb
          cases hb
          dsimp only
          refine ⟨?_, ?_, ?_⟩
          · apply (cmdsOk_append _ _ _ base.commands _ 0 0).mpr
            refine ⟨?_, ?_⟩
            · have := cmdsOk_mono base.dynamic_offsets base.string_data o []
                base.push_constant_data.length base.push_constant_data.length le_rfl
                base.commands 0 0 hok
              simpa using this
            · simp only [cmdsOk]
              refine ⟨?_, trivial⟩
              simp only [List.length_append]
              omega
          · rw [dynCount_append]
            simp only [dynCount, List.length_append]
            omega
          · rw [strCount_append]
            simp only [strCount]
            omega
  | setPipeline p =>
    simp only [applyRecordOp]
    unfold compute_pass_set_pipeline
    dsimp only
    cases hbase : pass.base with
    | none =>
      intro b hb
      simp at hb
    | some base =>
      obtain ⟨hok, hdyn, hstr⟩ := h base hbase
      dsimp only
      split
      · intro b hb
        dsimp only at hb
        cases hb
        exact ⟨hok, hdyn, hstr⟩
      · cases hhub : assocGet hub.compute_pipelines p with
        | none =>
          intro b hb
          dsimp only at hb
          cases hb
          exact ⟨hok, hdyn, hstr⟩
        | some pl =>
          intro b hb
          cases hb
          dsimp only
          refine ⟨?_, ?_, ?_⟩
          · exact (cmdsOk_append _ _ _ base.commands _ 0 0).mpr ⟨hok, trivial⟩
          · rw [dynCount_append]
            simp only [dynCount]
            omega
          · rw [strCount_append]
            simp only [strCount]
            omega
  | setPushConstant off data =>
    simp only [applyRecordOp]
    unfold compute_pass_set_push_constant
    cases hbase : pass.base with
    | none => exact h
    | some base =>
      obtain ⟨hok, hdyn, hstr⟩ := h base hbase
      dsimp only
      split
      · exact h
      split
      · exact h
      split
      · exact h
      intro b hb
      cases hb
      dsimp only
      refine ⟨?_, ?_, ?_⟩
      · apply (cmdsOk_append _ _ _ base.commands _ 0 0).mpr
        refine ⟨?_, ?_⟩
        · have := cmdsOk_mono base.dynamic_offsets base.string_data [] []
            base.push_constant_data.length
            (base.push_constant_data ++ bytesToWords data).length
            (by simp) base.commands 0 0 hok
          simpa using this
        · simp only [cmdsOk]
          refine ⟨?_, trivial⟩
          have hw := bytesToWords_length data
          have hdiv : data.length % u32Mod / 4 ≤ data.length / 4 :=
            Nat.div_le_div_right (Nat.mod_le _ _)
          simp only [List.length_append, hw]
          omega
      · rw [dynCount_append]
        simp only [dynCount]
        omega
      · rw [strCount_append]
        simp only [strCount]
        omega
  | dispatchWorkgroups x y z =>
    simp only [applyRecordOp]
    unfold compute_pass_dispatch_workgroups
    cases hbase : pass.base with
    | none => exact h
    | some base =>
      obtain ⟨hok, hdyn, hstr⟩ := h base hbase
      intro b hb
      cases hb
      dsimp only
      refine ⟨?_, ?_, ?_⟩
      · exact (cmdsOk_append _ _ _ base.commands _ 0 0).mpr ⟨hok, trivial⟩
      · rw [dynCount_append]
        simp only [dynCount]
        omega
      · rw [strCount_append]
        simp only [strCount]
        omega
  | dispatchWorkgroupsIndirect bid o =>
    simp only [applyRecordOp]
    unfold compute_pass_dispatch_workgroups_indirect
    cases hbase : pass.base with
    | none => exact h
    | some base =>
      obtain ⟨hok, hdyn, hstr⟩ := h base hbase
      dsimp only
      cases hhub : assocGet hub.buffers bid with
      | none => exact h
      | some buf =>
        intro b hb
        cases hb
        dsimp only
        refine ⟨?_, ?_, ?_⟩
        · exact (cmdsOk_append _ _ _ base.commands _ 0 0).mpr ⟨hok, trivial⟩
        · rw [dynCount_append]
          simp only [dynCount]
          omega
        · rw [strCount_append]
          simp only [strCount]
          omega
  | pushDebugGroup label color =>
    have hu : isValidUtf8 label = true := hwf
    simp only [applyRecordOp]
    unfold compute_pass_push_debug_group
    cases hbase : pass.base with
    | none => exact h
    | some base =>
      obtain ⟨hok, hdyn, hstr⟩ := h base hbase
      intro b hb
      cases hb
      dsimp only
      refine ⟨?_, ?_, ?_⟩
      · apply (cmdsOk_append _ _ _ base.commands _ 0 0).mpr
        refine ⟨?_, ?_⟩
        · have := cmdsOk_mono base.dynamic_offsets base.string_data [] label
            base.push_constant_data.length base.push_constant_data.length le_rfl
            base.commands 0 0 hok
          simpa using this
        · simp only [cmdsOk]
          refine ⟨?_, ?_, trivial⟩
          · simp only [List.length_append]
            omega
          · simp only [Nat.zero_add]
            rw [hstr, List.drop_left, List.take_length]
            exact hu
      · rw [dynCount_append]
        simp only [dynCount]
        omega
      · rw [strCount_append]
        simp only [strCount, List.length_append]
        omega
  | popDebugGroup =>
    simp only [applyRecordOp]
    unfold compute_pass_pop_debug_group
    cases hbase : pass.base with
    | none => exact h
    | some base =>
      obtain ⟨hok, hdyn, hstr⟩ := h base hbase
      intro b hb
      cases hb
      dsimp only
      refine ⟨?_, ?_, ?_⟩
      · exact (cmdsOk_append _ _ _ base.commands _ 0 0).mpr ⟨hok, trivial⟩
      · rw [dynCount_append]
        simp only [dynCount]
        omega
      · rw [strCount_append]
        simp only [strCount]
        omega
  | insertDebugMarker label color =>
    have hu : isValidUtf8 label = true := hwf
    simp only [applyRecordOp]
    unfold compute_pass_insert_debug_marker
    cases hbase : pass.base with
    | none => exact h
    | some base =>
      obtain ⟨hok, hdyn, hstr⟩ := h base hbase
      intro b hb
      cases hb
      dsimp only
      refine ⟨?_, ?_, ?_⟩
      · apply (cmdsOk_append _ _ _ base.commands _ 0 0).mpr
        refine ⟨?_, ?_⟩
        · have := cmdsOk_mono base.dynamic_offsets base.string_data [] label
            base.push_constant_data.length base.push_constant_data.length le_rfl
            base.commands 0 0 hok
          simpa using this
        · simp only [cmdsOk]
          refine ⟨?_, ?_, trivial⟩
          · simp only [List.length_append]
            omega
          · simp only [Nat.zero_add]
            rw [hstr, List.drop_left, List.take_length]
            exact hu
      · rw [dynCount_append]
        simp only [dynCount]
        omega
      · rw [strCount_append]
        simp only [strCount, List.length_append]
        omega
  | writeTimestamp q qi =>
    simp only [applyRecordOp]
    unfold compute_pass_write_timestamp
    cases hbase : pass.base with
    | none => exact h
    | some base =>
      obtain ⟨hok, hdyn, hstr⟩ := h base hbase
      dsimp only
      cases hhub : assocGet hub.query_sets q with
      | none => exact h
      | some qs =>
        intro b hb
        cases hb
        dsimp only
        refine ⟨?_, ?_, ?_⟩
        · exact (cmdsOk_append _ _ _ base.commands _ 0 0).mpr ⟨hok, trivial⟩
        · rw [dynCount_append]
          simp only [dynCount]
          omega
        · rw [strCount_append]
          simp only [strCount]
          omega
  | beginPipelineStatisticsQuery q qi =>
    simp only [applyRecordOp]
    unfold compute_pass_begin_pipeline_statistics_query
    cases hbase : pass.base with
    | none => exact h
    | some base =>
      obtain ⟨hok, hdyn, hstr⟩ := h base hbase
      dsimp only
      cases hhub : assocGet hub.query_sets q with
      | none => exact h
      | some qs =>
        intro b hb
        cases hb
        dsimp only
        refine ⟨?_, ?_, ?_⟩
        · exact (cmdsOk_append _ _ _ base.commands _ 0 0).mpr ⟨hok, trivial⟩
        · rw [dynCount_append]
          simp only [dynCount]
          omega
        · rw [strCount_append]
          simp only [strCount]
          omega
  | endPipelineStatisticsQuery =>
    simp only [applyRecordOp]
    unfold compute_pass_end_pipeline_statistics_query
    cases hbase : pass.base with
    | none => exact h
    | some base =>
      obtain ⟨hok, hdyn, hstr⟩ := h base hbase
      intro b hb
      cases hb
      dsimp only
      refine ⟨?_, ?_, ?_⟩
      · exact (cmdsOk_append _ _ _ base.commands _ 0 0).mpr ⟨hok, trivial⟩
      · rw [dynCount_append]
        simp only [dynCount]
        omega
      · rw [strCount_append]
        simp only [strCount]
        omega

theorem recordInv_ops (hub : HubM) (ops : List RecordOp) :
    ∀ pass : ComputePass, (∀ op ∈ ops, op.wfLabels) → recordInv pass →
      recordInv (applyRecordOps hub pass ops) := by
  induction ops with
  | nil =>
    intro pass _ h
    exact h
  | cons op rest ih =>
    intro pass hwf h
    unfold applyRecordOps
    exact ih _ (fun o ho => hwf o (List.mem_cons_of_mem _ ho))
      (recordInv_step hub pass op (hwf op (List.mem_cons_self _ _)) h)

theorem end_impl_no_panic (cmd_buf : CommandBufferM)
    (base : BasePass ArcComputeCommand)
    (tw : Option ArcComputePassTimestampWrites)
    (hpc : base.push_constant_data.length < u32Mod)
    (h : cmdsOk base.dynamic_offsets base.string_data
      base.push_constant_data.length base.commands 0 0) :
    (compute_pass_end_impl cmd_buf base tw).result ≠ .panicked := by
  unfold compute_pass_end_impl
  dsimp only
  repeat' split
  all_goals
    first
    | (simp; done)
    | (rename_i heq
       exact absurd heq (replayCmds_no_panic _ base base.commands hpc _ h))
    | (rename_i heq h2
       exact absurd heq (replayCmds_no_panic _ base base.commands hpc _ h))
    | (rename_i heq h2 h3
       exact absurd heq (replayCmds_no_panic _ base base.commands hpc _ h))
    | (rename_i heq h2 h3 h4
       exact absurd heq (replayCmds_no_panic _ base base.commands hpc _ h))

theorem set_pipeline_big_ok (st : State) (cb : CommandBufferM)
    (hdev : cb.device.devId = 0) (hbl : st.binder.pipeline_layout = none) :
    set_pipeline st cb pipeBigW =
      .ok { st with
              pipeline := some pipeBigW,
              binder := (st.binder.change_pipeline_layout pipeBigW.layout).1,
              trace := st.trace ++ [HalCmd.setComputePipeline pipeBigW.plId] ++
                pipeBigW.layout.push_constant_ranges.map
                  (fun r => HalCmd.pushConstantClear r.1 (r.2 - r.1)) } := by
  unfold set_pipeline
  rw [if_neg (by simp [pipeBigW, hdev])]
  dsimp only
  rw [hbl]
  dsimp only
  rw [if_pos rfl]

theorem set_push_constant_ok_shape (st : State) (pc : List Nat)
    (offset s v : Nat) (l : PipelineLayoutM)
    (hbl : st.binder.pipeline_layout = some l)
    (hv : v ≤ (v + s / 4) % u32Mod)
    (hle : (v + s / 4) % u32Mod ≤ pc.length)
    (hrange : (l.push_constant_ranges.any
      (fun r => decide (r.1 ≤ offset ∧ (offset + s) % u32Mod ≤ r.2))) = true) :
    set_push_constant st pc offset s v =
      .ok { st with
              trace := st.trace ++
                [HalCmd.setPushConstants offset
                  ((pc.drop v).take (((v + s / 4) % u32Mod) - v))] } := by
  unfold set_push_constant
  dsimp only
  rw [sliceStartEnd_isSome pc v ((v + s / 4) % u32Mod) hv hle]
  dsimp only
  rw [hbl]
  dsimp only
  rw [if_pos hrange]

theorem set_push_constant_wrap_panics (st : State) (pc : List Nat)
    (offset s v : Nat) (hwrap : ¬ v ≤ (v + s / 4) % u32Mod) :
    set_push_constant st pc offset s v = .panicked := by
  have hnone : sliceStartEnd pc v ((v + s / 4) % u32Mod) = none := by
    unfold sliceStartEnd
    rw [if_neg (fun hc => hwrap hc.1)]
  unfold set_push_constant
  dsimp only
  rw [hnone]

theorem pcBaseW_pc_length :
    pcBaseW.push_constant_data.length = (2 ^ 34 - 4) / 4 + 8 / 4 := by
  simp only [pcBaseW, List.length_append, bytesToWords_length,
    List.length_replicate]

theorem replay_big_then_wrap_panics (cb : CommandBufferM)
    (base : BasePass ArcComputeCommand) (s1 s2 v2 : Nat)
    (hdev : cb.device.devId = 0)
    (hcmds : base.commands =
      [ArcComputeCommand.setPipeline pipeBigW,
       ArcComputeCommand.setPushConstant 0 s1 0,
       ArcComputeCommand.setPushConstant 0 s2 v2])
    (hle1 : (0 + s1 / 4) % u32Mod ≤ base.push_constant_data.length)
    (hrange1 : (layoutBigW.push_constant_ranges.any
      (fun r => decide (r.1 ≤ 0 ∧ (0 + s1) % u32Mod ≤ r.2))) = true)
    (hwrap : ¬ v2 ≤ (v2 + s2 / 4) % u32Mod)
    (st : State) (hbl : st.binder.pipeline_layout = none) :
    (replayCmds cb base st base.commands).2 = RRes.panicked := by
  rw [hcmds]
  simp only [replayCmds, replayCmd]
  rw [set_pipeline_big_ok st cb hdev hbl]
  dsimp only
  rw [set_push_constant_ok_shape _ base.push_constant_data 0 s1 0 layoutBigW rfl
    (Nat.zero_le _) hle1 hrange1]
  dsimp only
  rw [set_push_constant_wrap_panics _ base.push_constant_data 0 s2 v2 hwrap]

theorem pcBaseW_replay_panics (cb : CommandBufferM) (hdev : cb.device.devId = 0)
    (st : State) (hbl : st.binder.pipeline_layout = none) :
    (replayCmds cb pcBaseW st pcBaseW.commands).2 = RRes.panicked :=
  replay_big_then_wrap_panics cb pcBaseW ((2 ^ 34 - 4) % u32Mod) (8 % u32Mod)
    ((2 ^ 34 - 4) / 4) hdev rfl
    (by rw [pcBaseW_pc_length]; norm_num [u32Mod])
    (by decide) (by norm_num [u32Mod]) st hbl

theorem end_impl_result_of_replay_panics (cmd_buf : CommandBufferM)
    (base : BasePass ArcComputeCommand)
    (hvalid : cmd_buf.device.valid = true)
    (hclose : (cmd_buf.encoder.closeStep).2 = true)
    (hopen : ((cmd_buf.encoder.closeStep).1.openStep).2 = true)
    (hrep : ∀ st : State, st.binder.pipeline_layout = none →
      (replayCmds
        { cbId := cmd_buf.cbId, device := cmd_buf.device,
          status := CommandEncoderStatus.error,
          encoder := ((cmd_buf.encoder.closeStep).1.openStep).1 }
        base st base.commands).2 = RRes.panicked) :
    (compute_pass_end_impl cmd_buf base none).result = RRes.panicked := by
  unfold compute_pass_end_impl
  dsimp only
  rw [if_neg (by simp [hvalid])]
  rw [if_neg (by simp [hclose])]
  rw [if_neg (by simp [hopen])]
  rw [hrep { initState cmd_buf.device with
    trace := [] ++ [HalCmd.beginComputePass base.label] } rfl]

/-- C10 (amended): replay is not total over arbitrary `BasePass` data —
a record whose recorded counts overrun the side buffers, reachable
through `compute_pass_end_with_unresolved_commands`, makes replay panic
instead of returning a `ComputePassError` — and for every record built
only through the recording API whose final push-constant word buffer
still fits in `u32`, each side-buffer slice is in bounds and each debug
label is valid UTF-8, so finalization never panics.  (The `u32` bound is
needed: the recording API can push the word buffer past `2 ^ 32`
entries, and a later command's wrapped `values_end_offset` then panics
at replay — see the counterexample.) -/
theorem claim10_replay_partiality :
    compute_pass_end_with_unresolved_commands hubW 0 badBaseW none = .panicked ∧
    (∀ (hub : HubM) (parent : Option CommandBufferM) (label : Option (List Nat))
        (tw : Option ArcComputePassTimestampWrites) (ops : List RecordOp),
      (∀ op ∈ ops, op.wfLabels) →
      ∀ (b : BasePass ArcComputeCommand) (cb : CommandBufferM)
        (tw' : Option ArcComputePassTimestampWrites),
        (applyRecordOps hub (ComputePass.mkNew parent label tw) ops).base = some b →
        b.push_constant_data.length < u32Mod →
        (compute_pass_end_impl cb b tw').result ≠ .panicked) := by
  constructor
  · decide
  · intro hub parent label tw ops hwf b cb tw' hb hlen
    have hinv := recordInv_ops hub ops (ComputePass.mkNew parent label tw) hwf
      (recordInv_new parent label tw)
    obtain ⟨hok, -, -⟩ := hinv b hb
    exact end_impl_no_panic cb b tw' hlen hok

/-- Witness for C10: a one-command recording history replayed by
finalization does not panic. -/
theorem claim10_witness :
    (compute_pass_end_impl cbW
      ⟨none, [ArcComputeCommand.pushDebugGroup 0 1], [], [0x61], []⟩
      none).result ≠ .panicked :=
  claim10_replay_partiality.2 hubW (some cbW) none none
    [RecordOp.pushDebugGroup [0x61] 0]
    (by
      intro op hop
      have hop' : op = RecordOp.pushDebugGroup [0x61] 0 := by simpa using hop
      subst hop'
      exact rfl)
    ⟨none, [ArcComputeCommand.pushDebugGroup 0 1], [], [0x61], []⟩ cbW none rfl
    (by decide)

/-- Witness for C5: at offset 0 on a size-8 buffer the overrun test is
the wrap-aware comparison of the amended claim. -/
theorem claim5_witness :
    (isOverrunErr (dispatch_indirect stReadyW cbW bufW 0) = true ↔
      (0 + 12) % u64Mod > bufW.size) ∧
    ((0 + 12) % u64Mod > bufW.size →
      dispatch_indirect stReadyW cbW bufW 0 =
        .err (.indirectBufferOverrun 0 ((0 + 12) % u64Mod) bufW.size)) ∧
    (0 + 12 < u64Mod → ((0 + 12) % u64Mod > bufW.size ↔ 0 + 12 > bufW.size)) :=
  claim5_indirect_overrun_amended stReadyW cbW bufW 0 (by decide) (by decide)
    (by decide) (by decide) (by decide)

/-- Witness for C6: a misaligned offset on a live pass fails with
`PushConstantOffsetAlignment`. -/
theorem claim6_witness :
    compute_pass_set_push_constant passW 2 [] =
      (passW, .error ⟨.setPushConstant, .pushConstantOffsetAlignment⟩) :=
  (claim6_push_constant_amended passW 2 []
    (BasePass.mkNew ArcComputeCommand none) rfl).1 (by decide)

/-- Witness for C7: with both write indices present, finalization emits
exactly one `reset_queries` over `min..max+1`. -/
theorem claim7_witness :
    (compute_pass_end_impl cbW emptyBaseW
        (some ⟨qsW, some 3, some 1⟩)).trace.filter isResetQueriesCmd =
      [HalCmd.resetQueries qsW.qsId (min 3 1) (max 3 1 + 1)] :=
  (claim7_timestamp_reset cbW emptyBaseW ⟨qsW, some 3, some 1⟩
      (by decide) (by decide) (by decide)).1 3 1 rfl rfl

theorem applyRecordOps_three (hub : HubM) (pass : ComputePass)
    (o1 o2 o3 : RecordOp) :
    applyRecordOps hub pass [o1, o2, o3] =
      (applyRecordOp hub
        (applyRecordOp hub (applyRecordOp hub pass o1).1 o2).1 o3).1 := rfl

/-- C10 counterexample: a record built only through the recording API
panics at replay.  `SetPushConstant` with `2 ^ 34 - 4` bytes of data
passes every recording check (the word buffer was empty, the length
truncates to `2 ^ 32 - 4` which is 4-aligned) and appends `2 ^ 32 - 1`
words; the following small push records `values_offset = 2 ^ 32 - 1`,
and at replay its `u32` slice end wraps to `1`, an inverted range. -/
theorem claim10_counterexample :
    ((applyRecordOps hubPcW (ComputePass.mkNew (some cbW) none none)
        [RecordOp.setPipeline 0,
         RecordOp.setPushConstant 0 (List.replicate (2 ^ 34 - 4) 0),
         RecordOp.setPushConstant 0 (List.replicate 8 0)]).base.map
      (fun b => (compute_pass_end_impl cbW b none).result)) =
      some RRes.panicked := by
  have hA : (applyRecordOp hubPcW (ComputePass.mkNew (some cbW) none none)
      (RecordOp.setPipeline 0)).1 =
      ⟨some ⟨none, [ArcComputeCommand.setPipeline pipeBigW], [], [], []⟩,
        some cbW, none, ⟨[]⟩, ⟨some 0⟩⟩ := by decide
  have hB : (applyRecordOp hubPcW
      (⟨some ⟨none, [ArcComputeCommand.setPipeline pipeBigW], [], [], []⟩,
        some cbW, none, ⟨[]⟩, ⟨some 0⟩⟩ : ComputePass)
      (RecordOp.setPushConstant 0 (List.replicate (2 ^ 34 - 4) 0))).1 =
      ⟨some ⟨none, [ArcComputeCommand.setPipeline pipeBigW,
            ArcComputeCommand.setPushConstant 0 ((2 ^ 34 - 4) % u32Mod) 0],
          [], [], bytesToWords (List.replicate (2 ^ 34 - 4) 0)⟩,
        some cbW, none, ⟨[]⟩, ⟨some 0⟩⟩ := by
    simp only [applyRecordOp]
    rw [set_push_constant_rec_ok
      (⟨some ⟨none, [ArcComputeCommand.setPipeline pipeBigW], [], [], []⟩,
        some cbW, none, ⟨[]⟩, ⟨some 0⟩⟩ : ComputePass) 0
      (List.replicate (2 ^ 34 - 4) 0)
      ⟨none, [ArcComputeCommand.setPipeline pipeBigW], [], [], []⟩ rfl rfl
      (by rw [List.length_replicate]; norm_num) (by decide)]
    simp only [List.length_replicate, List.nil_append, List.cons_append,
      List.length_nil]
  have hlt2 : (⟨none, [ArcComputeCommand.setPipeline pipeBigW,
        ArcComputeCommand.setPushConstant 0 ((2 ^ 34 - 4) % u32Mod) 0],
      [], [], bytesToWords (List.replicate (2 ^ 34 - 4) 0)⟩ :
        BasePass ArcComputeCommand).push_constant_data.length < u32Mod := by
    simp only [bytesToWords_length, List.length_replicate]
    norm_num [u32Mod]
  have hC : (applyRecordOp hubPcW
      (⟨some ⟨none, [ArcComputeCommand.setPipeline pipeBigW,
            ArcComputeCommand.setPushConstant 0 ((2 ^ 34 - 4) % u32Mod) 0],
          [], [], bytesToWords (List.replicate (2 ^ 34 - 4) 0)⟩,
        some cbW, none, ⟨[]⟩, ⟨some 0⟩⟩ : ComputePass)
      (RecordOp.setPushConstant 0 (List.replicate 8 0))).1 =
      ⟨some pcBaseW, some cbW, none, ⟨[]⟩, ⟨some 0⟩⟩ := by
    simp only [applyRecordOp]
    rw [set_push_constant_rec_ok
      (⟨some ⟨none, [ArcComputeCommand.setPipeline pipeBigW,
            ArcComputeCommand.setPushConstant 0 ((2 ^ 34 - 4) % u32Mod) 0],
          [], [], bytesToWords (List.replicate (2 ^ 34 - 4) 0)⟩,
        some cbW, none, ⟨[]⟩, ⟨some 0⟩⟩ : ComputePass) 0
      (List.replicate 8 0)
      ⟨none, [ArcComputeCommand.setPipeline pipeBigW,
        ArcComputeCommand.setPushConstant 0 ((2 ^ 34 - 4) % u32Mod) 0],
       [], [], bytesToWords (List.replicate (2 ^ 34 - 4) 0)⟩ rfl rfl
      (by decide) hlt2]
    simp only [pcBaseW, bytesToWords_length, List.length_replicate,
      List.cons_append, List.nil_append]
  have hpan : (compute_pass_end_impl cbW pcBaseW none).result = RRes.panicked :=
    end_impl_result_of_replay_panics cbW pcBaseW rfl rfl rfl
      (fun st hbl => pcBaseW_replay_panics _ rfl st hbl)
  have hops : (applyRecordOps hubPcW (ComputePass.mkNew (some cbW) none none)
      [RecordOp.setPipeline 0,
       RecordOp.setPushConstant 0 (List.replicate (2 ^ 34 - 4) 0),
       RecordOp.setPushConstant 0 (List.replicate 8 0)]) =
      ⟨some pcBaseW, some cbW, none, ⟨[]⟩, ⟨some 0⟩⟩ := by
    rw [applyRecordOps_three, hA, hB, hC]
  rw [hops]
  simp only [Option.map_some']
  rw [hpan]

end Wgpu
